import Mathlib

/-!
# Verification of the LegalEase clause-extraction engine

A shallow embedding, in Lean 4, of the clause extraction / filtering /
deduplication / prioritization pipeline of
`backend/contracts/clause_extractor.py` and of the deterministic (non-LLM)
parts of `backend/contracts/ai_analyzer.py`, together with theorems settling
the specification claims about them.

Modelling conventions:
* Python strings are `List Char` (`PyStr`); all character classes
  (`\w`, `\s`, `\d`, case mapping) use their ASCII meaning, which coincides
  with Python's behaviour on the ASCII texts the properties are about.
* Python's `re` module is embedded by a small backtracking engine
  (`Re` below) covering exactly the constructs the source uses:
  literals, `.`, classes, `* + ? {m,n}` (greedy and lazy), alternation,
  capturing and non-capturing groups, negative lookahead, `^ $ \b`, and the
  IGNORECASE / MULTILINE / DOTALL flags, with Python's leftmost,
  preference-order (backtracking) match semantics.  The engine is fuelled;
  the fuel bounds the backtracking depth and is chosen large enough for
  every evaluation appearing below.
* Python floats appear only in `texts_similar` (threshold `0.7`); the
  embedding uses exact rationals.  For word-set sizes below `2^50` the float
  comparison `intersection / union >= 0.7` agrees with the rational one, so
  this is faithful on any realistic document.
* Calls to the external generation service (OpenAI) are out of scope per the
  spec; functions whose behaviour depends on the service's response take the
  response (or the summarizer function) as an explicit parameter, and only
  the deterministic response-processing code is embedded.
-/

namespace LegalEase

/-- Python strings, embedded as lists of characters. -/
abbrev PyStr := List Char

/-- Coerce a Lean string literal to a `PyStr`. -/
def pyOf (s : String) : PyStr := s.data

/-- Python's `\w` / `str.isalnum`-style word character, ASCII: `[a-zA-Z0-9_]`. -/
def isWordCh (c : Char) : Bool :=
  (('a' ≤ c && c ≤ 'z') || ('A' ≤ c && c ≤ 'Z') || ('0' ≤ c && c ≤ '9') || c == '_')

/-- ASCII decimal digit (Python `str.isdigit` / regex `\d` on ASCII text). -/
def isDigitCh (c : Char) : Bool := '0' ≤ c && c ≤ '9'

/-- Python whitespace (`\s`, `str.isspace`, `str.strip`): space, tab, newline,
carriage return, vertical tab, form feed. -/
def isSpaceCh (c : Char) : Bool :=
  c == ' ' || c == '\t' || c == '\n' || c == '\r' || c == '\x0b' || c == '\x0c'

/-- ASCII uppercase letter (Python `str.isupper` for a single ASCII char). -/
def isUpperCh (c : Char) : Bool := 'A' ≤ c && c ≤ 'Z'

/-- ASCII lowercase mapping (Python `str.lower` on ASCII). -/
def lowerCh (c : Char) : Char := if isUpperCh c then Char.ofNat (c.toNat + 32) else c

/-- ASCII uppercase mapping (Python `str.upper` on ASCII). -/
def upperCh (c : Char) : Char :=
  if 'a' ≤ c && c ≤ 'z' then Char.ofNat (c.toNat - 32) else c

/-- `str.lower`. -/
def pyLower (s : PyStr) : PyStr := s.map lowerCh

/-- `str.upper`. -/
def pyUpper (s : PyStr) : PyStr := s.map upperCh

/-- `str.strip()` (strip whitespace from both ends). -/
def pyStrip (s : PyStr) : PyStr :=
  ((s.dropWhile isSpaceCh).reverse.dropWhile isSpaceCh).reverse

/-- `str.strip(chars)` for a single strip character. -/
def pyStripChar (c : Char) (s : PyStr) : PyStr :=
  ((s.dropWhile (· == c)).reverse.dropWhile (· == c)).reverse

/-- Python slice `s[a:b]` with non-negative bounds (clamping, like Python). -/
def pySlice (s : PyStr) (a b : Nat) : PyStr := (s.take b).drop a

/-- Python index `s[i]`; out-of-range reads (never reached on the guarded
index arithmetic of the source) give a NUL character. -/
def pyGet (s : PyStr) (i : Nat) : Char := s.getD i '\x00'

/-- Python substring test `sub in s`. -/
def pyContains (s sub : PyStr) : Bool :=
  (List.range (s.length + 1)).any (fun i => sub.isPrefixOf (s.drop i))

/-- `str.startswith`. -/
def pyStartsWith (s pre : PyStr) : Bool := pre.isPrefixOf s

/-- Numeric value of a digit string (Python `int(s)` for `s.isdigit()`). -/
def natOfDigits (s : PyStr) : Nat :=
  s.foldl (fun acc c => 10 * acc + (c.toNat - '0'.toNat)) 0

/-- Python `str.isdigit()`: non-empty and all (ASCII) digits. -/
def pyIsDigit (s : PyStr) : Bool := !s.isEmpty && s.all isDigitCh

/-- Decimal rendering of a natural number (Python `str(n)` / f-string). -/
def natRepr (n : Nat) : PyStr := (Nat.toDigits 10 n)

/-- `str.replace(a, b)` for single characters (the source only replaces
`'_'` by `' '`). -/
def pyReplaceCh (a b : Char) (s : PyStr) : PyStr :=
  s.map (fun c => if c == a then b else c)

/-- Python `str.title()`: uppercase every cased character that follows a
non-cased character, lowercase the rest. -/
def pyTitle (s : PyStr) : PyStr :=
  (s.foldl (fun (st : PyStr × Bool) c =>
    let isCased := ('a' ≤ c && c ≤ 'z') || ('A' ≤ c && c ≤ 'Z')
    if isCased then
      (if st.2 then lowerCh c :: st.1 else upperCh c :: st.1, true)
    else (c :: st.1, false)) ([], false)).1.reverse

/-- `sep.join(parts)`. -/
def pyJoin (sep : PyStr) (parts : List PyStr) : PyStr :=
  match parts with
  | [] => []
  | p :: ps => ps.foldl (fun acc q => acc ++ sep ++ q) p

/-- Python `str.rfind(ch)`: highest index of `ch`, `-1` if absent. -/
def pyRfind (s : PyStr) (c : Char) : Int :=
  s.foldl (fun (st : Int × Nat) ch =>
      (if ch == c then (Int.ofNat st.2, st.2 + 1) else (st.1, st.2 + 1)))
    (-1, 0) |>.1

/-! ## A Python `re` subset

The abstract syntax, pattern parser and backtracking matcher for the regex
constructs appearing in the repository, with Python semantics (leftmost
match, preference-order backtracking, greedy/lazy quantifiers). -/

/-- Items of a character class `[...]`. -/
inductive ClsItem where
  | cchar (c : Char)
  | crange (a b : Char)
  | cdigit
  | cspace
  | cword
deriving Repr, DecidableEq

/-- Regex abstract syntax. -/
inductive Re where
  | eps
  | rchar (c : Char)
  | rany
  | rcls (neg : Bool) (items : List ClsItem)
  | rseq (a b : Re)
  | ralt (a b : Re)
  | rrep (r : Re) (lo : Nat) (hi : Option Nat) (lazy : Bool)
  | rgroup (idx : Nat) (r : Re)
  | rngroup (r : Re)
  | rnla (r : Re)
  | rbol
  | reol
  | rwordb
deriving Repr, DecidableEq

/-- The `re` flags used by the source: `IGNORECASE`, `MULTILINE`, `DOTALL`. -/
structure ReFlags where
  icase : Bool := false
  multiline : Bool := false
  dotall : Bool := false
deriving Repr, DecidableEq

/-- Escape-sequence meaning outside a class (`\d`, `\s`, `\w`, `\b`,
control-character escapes, and identity on everything else). -/
def escAtom (c : Char) : Re :=
  if c == 'd' then .rcls false [.cdigit]
  else if c == 's' then .rcls false [.cspace]
  else if c == 'w' then .rcls false [.cword]
  else if c == 'b' then .rwordb
  else if c == 'n' then .rchar '\n'
  else if c == 't' then .rchar '\t'
  else if c == 'r' then .rchar '\r'
  else if c == 'f' then .rchar '\x0c'
  else if c == 'v' then .rchar '\x0b'
  else .rchar c

/-- Escape-sequence meaning inside a class. -/
def escCls (c : Char) : ClsItem :=
  if c == 'd' then .cdigit
  else if c == 's' then .cspace
  else if c == 'w' then .cword
  else if c == 'n' then .cchar '\n'
  else if c == 't' then .cchar '\t'
  else if c == 'r' then .cchar '\r'
  else if c == 'f' then .cchar '\x0c'
  else if c == 'v' then .cchar '\x0b'
  else .cchar c

/-- Parse the body of a character class up to `]` (a `-` adjacent to the
closing bracket is a literal, as in Python). -/
def clsBody : PyStr → List ClsItem → Option (List ClsItem × PyStr)
  | [], _ => none
  | ']' :: rest, acc => some (acc.reverse, rest)
  | '\\' :: c :: rest, acc => clsBody rest (escCls c :: acc)
  | a :: '-' :: ']' :: rest, acc =>
    some ((ClsItem.cchar '-' :: ClsItem.cchar a :: acc).reverse, rest)
  | a :: '-' :: c :: rest, acc => clsBody rest (.crange a c :: acc)
  | c :: rest, acc => clsBody rest (.cchar c :: acc)

/-- Parse a decimal number prefix of the pattern. -/
def numPfx : PyStr → Nat → (Nat × PyStr)
  | c :: rest, acc =>
    if isDigitCh c then numPfx rest (10 * acc + (c.toNat - '0'.toNat))
    else (acc, c :: rest)
  | [], acc => (acc, [])

/-- Parse a `\x7bm,n\x7d` / `\x7bm,\x7d` / `\x7bm\x7d` quantifier bound
(after the opening brace). -/
def braceBound (s : PyStr) : Option (Nat × Option Nat × PyStr) :=
  let (lo, s1) := numPfx s 0
  match s1 with
  | '\x7d' :: rest => some (lo, some lo, rest)
  | ',' :: s2 =>
    match s2 with
    | '\x7d' :: rest => some (lo, none, rest)
    | _ =>
      let (hi, s3) := numPfx s2 0
      match s3 with
      | '\x7d' :: rest => some (lo, some hi, rest)
      | _ => none
  | _ => none

/-- Parser modes: alternation, concatenation, repeated atom, atom. -/
inductive PMode where
  | palt
  | pseq
  | prep
  | patom
deriving Repr, DecidableEq

/-- The recursive-descent pattern parser, fuelled (one function over the
four grammar levels so that the recursion is structural on the fuel and
reduces definitionally); `g` is the next capture-group number. -/
def reParseM : Nat → PMode → PyStr → Nat → Option (Re × PyStr × Nat)
  | 0, _, _, _ => none
  | fuel + 1, .palt, s, g =>
    (match reParseM fuel .pseq s g with
    | none => none
    | some (r, s1, g1) =>
      match s1 with
      | '|' :: s2 =>
        match reParseM fuel .palt s2 g1 with
        | none => none
        | some (r2, s3, g3) => some (.ralt r r2, s3, g3)
      | _ => some (r, s1, g1))
  | fuel + 1, .pseq, s, g =>
    (match s with
    | [] => some (.eps, [], g)
    | '|' :: _ => some (.eps, s, g)
    | ')' :: _ => some (.eps, s, g)
    | _ =>
      match reParseM fuel .prep s g with
      | none => none
      | some (r, s1, g1) =>
        match reParseM fuel .pseq s1 g1 with
        | none => none
        | some (r2, s2, g2) => some (.rseq r r2, s2, g2))
  | fuel + 1, .prep, s, g =>
    (match reParseM fuel .patom s g with
    | none => none
    | some (r, s1, g1) =>
      match s1 with
      | '*' :: '?' :: rest => some (.rrep r 0 none true, rest, g1)
      | '*' :: rest => some (.rrep r 0 none false, rest, g1)
      | '+' :: '?' :: rest => some (.rrep r 1 none true, rest, g1)
      | '+' :: rest => some (.rrep r 1 none false, rest, g1)
      | '?' :: '?' :: rest => some (.rrep r 0 (some 1) true, rest, g1)
      | '?' :: rest => some (.rrep r 0 (some 1) false, rest, g1)
      | '\x7b' :: s2 =>
        (match braceBound s2 with
        | some (lo, hi, '?' :: rest) => some (.rrep r lo hi true, rest, g1)
        | some (lo, hi, rest) => some (.rrep r lo hi false, rest, g1)
        | none => some (r, s1, g1))
      | _ => some (r, s1, g1))
  | fuel + 1, .patom, s, g =>
    (match s with
    | [] => none
    | '(' :: '?' :: ':' :: s1 =>
      (match reParseM fuel .palt s1 g with
      | some (r, ')' :: s2, g2) => some (.rngroup r, s2, g2)
      | _ => none)
    | '(' :: '?' :: '!' :: s1 =>
      (match reParseM fuel .palt s1 g with
      | some (r, ')' :: s2, g2) => some (.rnla r, s2, g2)
      | _ => none)
    | '(' :: s1 =>
      (match reParseM fuel .palt s1 (g + 1) with
      | some (r, ')' :: s2, g2) => some (.rgroup g r, s2, g2)
      | _ => none)
    | '[' :: '^' :: s1 =>
      (match clsBody s1 [] with
      | some (items, s2) => some (.rcls true items, s2, g)
      | none => none)
    | '[' :: s1 =>
      (match clsBody s1 [] with
      | some (items, s2) => some (.rcls false items, s2, g)
      | none => none)
    | '.' :: s1 => some (.rany, s1, g)
    | '^' :: s1 => some (.rbol, s1, g)
    | '$' :: s1 => some (.reol, s1, g)
    | '\\' :: c :: s1 => some (escAtom c, s1, g)
    | c :: s1 => some (.rchar c, s1, g))

/-- Parse a whole pattern string (group numbering starts at 1). -/
def reParse (pat : PyStr) : Option Re :=
  match reParseM (4 * pat.length + 16) .palt pat 1 with
  | some (r, [], _) => some r
  | _ => none

/-- Does character `c` match class item `it` (exact case)? -/
def itemMatch (it : ClsItem) (c : Char) : Bool :=
  match it with
  | .cchar c0 => c == c0
  | .crange a b => a ≤ c && c ≤ b
  | .cdigit => isDigitCh c
  | .cspace => isSpaceCh c
  | .cword => isWordCh c

/-- Class match, honouring `IGNORECASE` (Python matches if the character or a
case variant of it is in the class). -/
def clsMatch (fl : ReFlags) (neg : Bool) (items : List ClsItem) (c : Char) : Bool :=
  let base := items.any (fun it =>
    itemMatch it c ||
      (fl.icase && (itemMatch it (lowerCh c) || itemMatch it (upperCh c))))
  if neg then !base else base

/-- Single-character match, honouring `IGNORECASE`. -/
def chEq (fl : ReFlags) (cpat cin : Char) : Bool :=
  if fl.icase then lowerCh cpat == lowerCh cin else cpat == cin

/-- Recorded capture groups: (group index, start, end) in absolute positions;
most recent first. -/
abbrev CapList := List (Nat × Nat × Nat)

/-- A matcher state during repetition enumeration: previous character,
remaining input, absolute position. -/
abbrev RState := Option Char × List Char × Nat

/-- Is `re` an atom that consumes exactly one character and matches
deterministically?  If so, return its character test.  Repetitions of such
atoms are run iteratively (same semantics as the backtracking expansion,
since each iteration can match in only one way) to keep recursion depth
independent of the repetition length. -/
def singleCharTest (fl : ReFlags) : Re → Option (Char → Bool)
  | .rchar c => some (fun c' => chEq fl c c')
  | .rany => some (fun c' => c' != '\n' || fl.dotall)
  | .rcls neg items => some (fun c' => clsMatch fl neg items c')
  | _ => none

/-- Consume up to `lo` mandatory single-character iterations. -/
def repMandatory (isM : Char → Bool) :
    Nat → Option Char → List Char → Nat → Option RState
  | 0, prev, rest, pos => some (prev, rest, pos)
  | lo + 1, _, rest, pos =>
    match rest with
    | [] => none
    | c :: rs => if isM c then repMandatory isM lo (some c) rs (pos + 1) else none

/-- Enumerate the reachable states of an optional single-character
repetition, longest first (greedy preference order); `hi` is the remaining
iteration budget. -/
def repStates (isM : Char → Bool) :
    Option Nat → Option Char → List Char → Nat → List RState → List RState
  | hi, prev, rest, pos, acc =>
    match hi with
    | some 0 => (prev, rest, pos) :: acc
    | _ =>
      match rest with
      | [] => (prev, rest, pos) :: acc
      | c :: rs =>
        if isM c then
          repStates isM (hi.map (· - 1)) (some c) rs (pos + 1)
            ((prev, rest, pos) :: acc)
        else (prev, rest, pos) :: acc

/-- Try the continuation on each state in order, first success wins. -/
def tryStates (k : Option Char → List Char → Nat → Option (Nat × CapList)) :
    List RState → Option (Nat × CapList)
  | [] => none
  | (prev, rest, pos) :: more =>
    match k prev rest pos with
    | some res => some res
    | none => tryStates k more

/-- Is there a word character at an optional position? (`\b` helper). -/
def wordAt : Option Char → Bool
  | some c => isWordCh c
  | none => false

/-- The backtracking matcher, in continuation-passing style.  The state is
(previous character, remaining input, absolute position, captures); `k` is
invoked on every candidate way of matching `re`, in Python's preference
order, and the first success wins.  `fuel` bounds the recursion depth. -/
def reM (fl : ReFlags) :
    Nat → Re → Option Char → List Char → Nat → CapList →
    (Option Char → List Char → Nat → CapList → Option (Nat × CapList)) →
    Option (Nat × CapList)
  | 0, _, _, _, _, _, _ => none
  | _ + 1, .eps, prev, rest, pos, caps, k => k prev rest pos caps
  | _ + 1, .rchar c, _, rest, pos, caps, k =>
    match rest with
    | [] => none
    | c' :: rs => if chEq fl c c' then k (some c') rs (pos + 1) caps else none
  | _ + 1, .rany, _, rest, pos, caps, k =>
    match rest with
    | [] => none
    | c' :: rs =>
      if c' != '\n' || fl.dotall then k (some c') rs (pos + 1) caps else none
  | _ + 1, .rcls neg items, _, rest, pos, caps, k =>
    match rest with
    | [] => none
    | c' :: rs => if clsMatch fl neg items c' then k (some c') rs (pos + 1) caps else none
  | fuel + 1, .rseq a b, prev, rest, pos, caps, k =>
    reM fl fuel a prev rest pos caps (fun p' r' po' ca' =>
      reM fl fuel b p' r' po' ca' k)
  | fuel + 1, .ralt a b, prev, rest, pos, caps, k =>
    match reM fl fuel a prev rest pos caps k with
    | some res => some res
    | none => reM fl fuel b prev rest pos caps k
  | fuel + 1, .rrep r lo hi lz, prev, rest, pos, caps, k =>
    match singleCharTest fl r with
    | some isM =>
      -- iterative expansion (the body consumes exactly one character and
      -- matches deterministically, so this is the backtracking order)
      (match repMandatory isM lo prev rest pos with
      | none => none
      | some (p1, r1, po1) =>
        let states := repStates isM (hi.map (· - lo)) p1 r1 po1 []
        let states := if lz then states.reverse else states
        tryStates (fun p' r' po' => k p' r' po' caps) states)
    | none =>
      if lo > 0 then
        reM fl fuel r prev rest pos caps (fun p' r' po' ca' =>
          reM fl fuel (.rrep r (lo - 1) (hi.map (· - 1)) lz) p' r' po' ca' k)
      else if hi == some 0 then k prev rest pos caps
      else if lz then
        match k prev rest pos caps with
        | some res => some res
        | none =>
          reM fl fuel r prev rest pos caps (fun p' r' po' ca' =>
            if po' == pos then none
            else reM fl fuel (.rrep r 0 (hi.map (· - 1)) lz) p' r' po' ca' k)
      else
        match reM fl fuel r prev rest pos caps (fun p' r' po' ca' =>
            if po' == pos then none
            else reM fl fuel (.rrep r 0 (hi.map (· - 1)) lz) p' r' po' ca' k) with
        | some res => some res
        | none => k prev rest pos caps
  | fuel + 1, .rgroup idx r, prev, rest, pos, caps, k =>
    reM fl fuel r prev rest pos caps (fun p' r' po' ca' =>
      k p' r' po' ((idx, pos, po') :: ca'))
  | fuel + 1, .rngroup r, prev, rest, pos, caps, k =>
    reM fl fuel r prev rest pos caps k
  | fuel + 1, .rnla r, prev, rest, pos, caps, k =>
    match reM fl fuel r prev rest pos caps (fun _ _ po' ca' => some (po', ca')) with
    | some _ => none
    | none => k prev rest pos caps
  | _ + 1, .rbol, prev, rest, pos, caps, k =>
    if pos == 0 || (fl.multiline && prev == some '\n') then k prev rest pos caps
    else none
  | _ + 1, .reol, prev, rest, pos, caps, k =>
    if (match rest with
        | [] => true
        | '\n' :: rs => fl.multiline || rs.isEmpty
        | _ => false) then k prev rest pos caps
    else none
  | _ + 1, .rwordb, prev, rest, pos, caps, k =>
    if wordAt prev != wordAt rest.head? then k prev rest pos caps else none

/-- Size of a regex AST, used to budget matcher fuel. -/
def reSize : Re → Nat
  | .eps | .rchar _ | .rany | .rcls _ _ | .rbol | .reol | .rwordb => 1
  | .rseq a b | .ralt a b => reSize a + reSize b + 1
  | .rrep r _ _ _ => reSize r + 1
  | .rgroup _ r | .rngroup r | .rnla r => reSize r + 1

/-- A match object: start, end, captures. -/
structure RMatch where
  mstart : Nat
  mend : Nat
  caps : CapList
deriving Repr, DecidableEq

/-- Attempt an anchored match of `re` at the current state; returns the end
position and captures of the first match in preference order (Python
semantics). -/
def tryAt (fl : ReFlags) (re : Re) (prev : Option Char) (rest : List Char)
    (pos : Nat) : Option (Nat × CapList) :=
  reM fl ((reSize re + 2) * (rest.length + 2) + 16) re prev rest pos []
    (fun _ _ po ca => some (po, ca))

/-- Scan for the leftmost match (`re.search`). -/
def reSearchAux (fl : ReFlags) (re : Re) :
    Nat → Option Char → List Char → Nat → Option RMatch
  | 0, _, _, _ => none
  | fuel + 1, prev, rest, pos =>
    match tryAt fl re prev rest pos with
    | some (e, ca) => some ⟨pos, e, ca⟩
    | none =>
      match rest with
      | [] => none
      | c :: rs => reSearchAux fl re fuel (some c) rs (pos + 1)

/-- `re.search(pat, text, flags)`. -/
def reSearch (fl : ReFlags) (pat : PyStr) (text : PyStr) : Option RMatch :=
  match reParse pat with
  | some re => reSearchAux fl re (text.length + 1) none text 0
  | none => none

/-- `re.match(pat, text, flags)` (anchored at position 0). -/
def reMatch (fl : ReFlags) (pat : PyStr) (text : PyStr) : Option RMatch :=
  match reParse pat with
  | some re =>
    match tryAt fl re none text 0 with
    | some (e, ca) => some ⟨0, e, ca⟩
    | none => none
  | none => none

/-- All matches, scanning left to right, non-overlapping, empty matches
advance by one character (`re.finditer`). -/
def reFindAux (fl : ReFlags) (re : Re) :
    Nat → Option Char → List Char → Nat → List RMatch
  | 0, _, _, _ => []
  | fuel + 1, prev, rest, pos =>
    match tryAt fl re prev rest pos with
    | some (e, ca) =>
      let m : RMatch := ⟨pos, e, ca⟩
      if e == pos then
        match rest with
        | [] => [m]
        | c :: rs => m :: reFindAux fl re fuel (some c) rs (pos + 1)
      else
        let consumed := e - pos
        m :: reFindAux fl re fuel (some (pyGet rest (consumed - 1)))
          (rest.drop consumed) e
    | none =>
      match rest with
      | [] => []
      | c :: rs => reFindAux fl re fuel (some c) rs (pos + 1)

/-- `re.finditer(pat, text, flags)`. -/
def reFinditer (fl : ReFlags) (pat : PyStr) (text : PyStr) : List RMatch :=
  match reParse pat with
  | some re => reFindAux fl re (text.length + 1) none text 0
  | none => []

/-- `re.sub(pat, repl, text, flags)` with a literal replacement string. -/
def reSubAux (fl : ReFlags) (re : Re) (repl : PyStr) :
    Nat → Option Char → List Char → Nat → List Char
  | 0, _, rest, _ => rest
  | fuel + 1, prev, rest, pos =>
    match tryAt fl re prev rest pos with
    | some (e, _) =>
      if e == pos then
        match rest with
        | [] => repl
        | c :: rs => repl ++ c :: reSubAux fl re repl fuel (some c) rs (pos + 1)
      else
        let consumed := e - pos
        repl ++ reSubAux fl re repl fuel (some (pyGet rest (consumed - 1)))
          (rest.drop consumed) e
    | none =>
      match rest with
      | [] => []
      | c :: rs => c :: reSubAux fl re repl fuel (some c) rs (pos + 1)

/-- `re.sub` with a literal replacement (the source never uses
backreferences in replacements). -/
def reSub (fl : ReFlags) (pat : PyStr) (repl : PyStr) (text : PyStr) : PyStr :=
  match reParse pat with
  | some re => reSubAux fl re repl (text.length + 1) none text 0
  | none => text

/-- `re.split` helper; `cur` is the reversed current piece. -/
def reSplitAux (fl : ReFlags) (re : Re) :
    Nat → Option Char → List Char → Nat → List Char → List PyStr
  | 0, _, rest, _, cur => [cur.reverse ++ rest]
  | fuel + 1, prev, rest, pos, cur =>
    match tryAt fl re prev rest pos with
    | some (e, _) =>
      if e == pos then
        match rest with
        | [] => [cur.reverse]
        | c :: rs => reSplitAux fl re fuel (some c) rs (pos + 1) (c :: cur)
      else
        let consumed := e - pos
        cur.reverse :: reSplitAux fl re fuel (some (pyGet rest (consumed - 1)))
          (rest.drop consumed) e []
    | none =>
      match rest with
      | [] => [cur.reverse]
      | c :: rs => reSplitAux fl re fuel (some c) rs (pos + 1) (c :: cur)

/-- `re.split(pat, text, flags)` (no capture groups in the source's split
patterns). -/
def reSplit (fl : ReFlags) (pat : PyStr) (text : PyStr) : List PyStr :=
  match reParse pat with
  | some re => reSplitAux fl re (text.length + 1) none text 0 []
  | none => [text]

/-- Truthiness of an `re` search result (`bool(re.search(...))`). -/
def reHas (fl : ReFlags) (pat : PyStr) (text : PyStr) : Bool :=
  (reSearch fl pat text).isSome

/-- Captured text of group `idx` of a match, given the text the match ran on. -/
def groupStr (text : PyStr) (m : RMatch) (idx : Nat) : Option PyStr :=
  match m.caps.find? (fun c => c.1 == idx) with
  | some (_, s, e) => some (pySlice text s e)
  | none => none

/-- Helper for `wordRuns`: `cur` is the reversed run of word characters read
so far. -/
def wordRunsAux : PyStr → PyStr → List PyStr
  | cur, [] => if cur.isEmpty then [] else [cur.reverse]
  | cur, c :: rest =>
    if isWordCh c then wordRunsAux (c :: cur) rest
    else if cur.isEmpty then wordRunsAux [] rest
    else cur.reverse :: wordRunsAux [] rest

/-- Maximal runs of word characters, i.e. `re.findall(r'\w+', s)`. -/
def wordRuns (s : PyStr) : List PyStr := wordRunsAux [] s

/-! ## Data model (`clause_extractor.py`) -/

/-- One extracted clause occurrence (the dictionaries built by
`extract_clause_context`; the `summary` key is absent until
`add_clause_summaries` attaches it, which `Option` models). -/
structure ClauseInstance where
  text : PyStr
  matched : PyStr
  position : Nat
  article : Option PyStr
  summary : Option PyStr := none
deriving Repr, DecidableEq

/-- One clause group of the `extract_all_clauses` output. -/
structure ClauseGroup where
  type : PyStr
  description : PyStr
  risk_level : PyStr
  clauses : List ClauseInstance
  count : Nat
deriving Repr, DecidableEq

/-- Catalog entry: keyword patterns, description, base risk tier. -/
structure ClauseInfo where
  keywords : List PyStr
  description : PyStr
  risk_level : PyStr
deriving Repr, DecidableEq

/-- The static pattern catalog `CLAUSE_PATTERNS` (dict iteration order =
declaration order). -/
def CLAUSE_PATTERNS : List (PyStr × ClauseInfo) := [
  (pyOf "auto_renewal", {
    keywords := [pyOf "auto.*renew", pyOf "automatic.*renewal",
      pyOf "shall.*automatically.*renew", pyOf "self.*renew", pyOf "evergreen",
      pyOf "renew.*automatically"],
    description := pyOf "Auto-renewal clauses that automatically extend the contract",
    risk_level := pyOf "medium" }),
  (pyOf "indemnity", {
    keywords := [pyOf "indemnif", pyOf "hold.*harmless", pyOf "assume.*liability",
      pyOf "defend.*indemnif", pyOf "indemnification"],
    description := pyOf "Indemnity clauses that transfer liability",
    risk_level := pyOf "high" }),
  (pyOf "termination", {
    keywords := [pyOf "terminat", pyOf "cancel", pyOf "expir", pyOf "end.*contract",
      pyOf "breach.*terminat", pyOf "early.*terminat"],
    description := pyOf "Termination and early termination clauses",
    risk_level := pyOf "medium" }),
  (pyOf "confidentiality", {
    keywords := [pyOf "confidential", pyOf "non.*disclosure", pyOf "nda",
      pyOf "proprietary.*information", pyOf "trade.*secret"],
    description := pyOf "Confidentiality and non-disclosure clauses",
    risk_level := pyOf "low" }),
  (pyOf "payment", {
    keywords := [pyOf "payment.*term", pyOf "invoice", pyOf "due.*date",
      pyOf "late.*fee", pyOf "payment.*schedule", pyOf "recurring.*payment",
      pyOf "base.*rent", pyOf "monthly.*installment", pyOf "rent.*payable",
      pyOf "annual.*rent", pyOf "\\$\\s*\\d+.*per", pyOf "payment.*of.*\\$\\d+",
      pyOf "fee.*of.*\\$\\d+", pyOf "compensation", pyOf "reimbursement",
      pyOf "cost.*sharing", pyOf "budget.*allocation", pyOf "emi.*payment",
      pyOf "equated.*monthly.*installment", pyOf "installment.*payment",
      pyOf "loan.*installment", pyOf "deviation.*charge", pyOf "processing.*charge"],
    description := pyOf "Payment terms, fees, rent schedules, and financial obligations",
    risk_level := pyOf "low" }),
  (pyOf "security_deposit", {
    keywords := [pyOf "security.*deposit", pyOf "security\\s+deposit"],
    description := pyOf "Security deposit and refund terms",
    risk_level := pyOf "low" }),
  (pyOf "rent_increase", {
    keywords := [pyOf "rent.*increas", pyOf "escalat", pyOf "rent.*adjust",
      pyOf "annual.*increas", pyOf "year.*over.*year"],
    description := pyOf "Rent escalation and increase clauses",
    risk_level := pyOf "medium" }),
  (pyOf "subletting", {
    keywords := [pyOf "assignment.*subletting", pyOf "article\\s+\\d+.*assignment.*sublet",
      pyOf "sublet.*premises", pyOf "assign.*lease", pyOf "consent.*sublet",
      pyOf "consent.*assignment"],
    description := pyOf "Subletting and assignment restrictions",
    risk_level := pyOf "medium" }),
  (pyOf "default_remedies", {
    keywords := [pyOf "default.*under.*lease", pyOf "default.*breach",
      pyOf "default.*remed", pyOf "article\\s+\\d+.*default", pyOf "default.*terminat",
      pyOf "remedies.*default"],
    description := pyOf "Default, breach, and remedy provisions",
    risk_level := pyOf "high" }),
  (pyOf "liability", {
    keywords := [pyOf "limitation.*liability", pyOf "exclude.*liability",
      pyOf "no.*liability", pyOf "liability.*cap", pyOf "consequential.*damages",
      pyOf "indirect.*damages"],
    description := pyOf "Liability limitation clauses",
    risk_level := pyOf "medium" }),
  (pyOf "dispute_resolution", {
    keywords := [pyOf "dispute.*resolution", pyOf "arbitration", pyOf "mediation",
      pyOf "jurisdiction", pyOf "governing.*law", pyOf "venue"],
    description := pyOf "Dispute resolution and jurisdiction clauses",
    risk_level := pyOf "medium" }),
  (pyOf "force_majeure", {
    keywords := [pyOf "force.*majeure", pyOf "act.*god",
      pyOf "unforeseeable.*circumstance", pyOf "natural.*disaster"],
    description := pyOf "Force majeure clauses for unforeseeable circumstances",
    risk_level := pyOf "low" }),
  (pyOf "intellectual_property", {
    keywords := [pyOf "intellectual.*property", pyOf "ip.*rights", pyOf "copyright",
      pyOf "trademark", pyOf "patent", pyOf "ownership.*work"],
    description := pyOf "Intellectual property and ownership clauses",
    risk_level := pyOf "medium" }),
  (pyOf "warranty", {
    keywords := [pyOf "warrant", pyOf "guarantee", pyOf "warranty.*period",
      pyOf "as.*is", pyOf "no.*warranty", pyOf "disclaim.*warranty"],
    description := pyOf "Warranty and guarantee clauses",
    risk_level := pyOf "medium" }),
  (pyOf "duration_term", {
    keywords := [pyOf "term.*of.*\\d+", pyOf "duration.*\\d+", pyOf "commencement.*date",
      pyOf "expiration.*date", pyOf "effective.*date", pyOf "period.*of.*performance",
      pyOf "agreement.*period", pyOf "contract.*term", pyOf "lease.*term"],
    description := pyOf "Contract duration, term, and effective dates",
    risk_level := pyOf "low" }),
  (pyOf "obligations_duties", {
    keywords := [pyOf "obligation", pyOf "shall.*provide", pyOf "shall.*perform",
      pyOf "responsibility", pyOf "duty.*to", pyOf "must.*deliver", pyOf "required.*to",
      pyOf "shall.*maintain"],
    description := pyOf "Key obligations and duties of parties",
    risk_level := pyOf "medium" }),
  (pyOf "modifications_amendments", {
    keywords := [pyOf "amendment", pyOf "modification", pyOf "amend.*this.*agreement",
      pyOf "change.*to.*agreement", pyOf "revised.*agreement", pyOf "supplement.*to"],
    description := pyOf "Amendment and modification procedures",
    risk_level := pyOf "low" }),
  (pyOf "data_information", {
    keywords := [pyOf "data.*provide", pyOf "information.*submit",
      pyOf "report.*requirement", pyOf "annual.*report", pyOf "data.*collection",
      pyOf "information.*sharing"],
    description := pyOf "Data submission and reporting requirements",
    risk_level := pyOf "low" }),
  (pyOf "calculation_methodology", {
    keywords := [pyOf "calculation.*method", pyOf "formula", pyOf "compute",
      pyOf "weighted.*average", pyOf "methodology", pyOf "determine.*by"],
    description := pyOf "Calculation methods and formulas",
    risk_level := pyOf "low" }),
  (pyOf "interest_rate", {
    keywords := [pyOf "rate.*of.*interest", pyOf "interest.*rate", pyOf "floating.*rate",
      pyOf "fixed.*rate", pyOf "eblr", pyOf "base.*rate", pyOf "spread.*over",
      pyOf "interest.*linked", pyOf "rate.*linked.*to", pyOf "percent.*per.*annum",
      pyOf "%.*per.*annum", pyOf "%.*p\\.?a\\.?", pyOf "annual.*percentage.*rate",
      pyOf "apr", pyOf "simple.*rate.*interest", pyOf "compound.*interest",
      pyOf "rate.*reset", pyOf "rate.*review"],
    description := pyOf "Interest rate, floating/fixed rates, and rate calculation methods",
    risk_level := pyOf "medium" }),
  (pyOf "loan_tenure", {
    keywords := [pyOf "loan.*tenure", pyOf "loan.*term", pyOf "tenure.*of.*loan",
      pyOf "term.*of.*loan", pyOf "repayment.*period", pyOf "loan.*duration",
      pyOf "loan.*period", pyOf "tenor.*of.*loan", pyOf "repayment.*tenure",
      pyOf "\\d+\\s*months.*repayment", pyOf "\\d+\\s*years.*repayment"],
    description := pyOf "Loan tenure, repayment period, and loan duration",
    risk_level := pyOf "low" }),
  (pyOf "moratorium", {
    keywords := [pyOf "moratorium.*period", pyOf "moratorium", pyOf "grace.*period",
      pyOf "repayment.*holiday", pyOf "payment.*holiday", pyOf "deferment.*period",
      pyOf "interest.*only.*period", pyOf "course.*period", pyOf "course.*and.*moratorium"],
    description := pyOf "Moratorium period, grace period, and payment deferment",
    risk_level := pyOf "medium" }),
  (pyOf "penal_interest", {
    keywords := [pyOf "penal.*interest", pyOf "penalty.*interest", pyOf "overdue.*interest",
      pyOf "default.*interest", pyOf "penal.*charge", pyOf "penalty.*charge",
      pyOf "overdue.*charge", pyOf "default.*charge", pyOf "%.*on.*overdue",
      pyOf "penal.*@.*\\d+%", pyOf "penalty.*@.*\\d+%"],
    description := pyOf "Penal interest, penalty charges, and overdue/default charges",
    risk_level := pyOf "high" }),
  (pyOf "security_collateral", {
    keywords := [pyOf "security.*document", pyOf "collateral", pyOf "mortgage",
      pyOf "secured.*loan", pyOf "security.*deposit", pyOf "hypothecat", pyOf "pledge",
      pyOf "guarantor", pyOf "guarantee", pyOf "collateral.*coverag", pyOf "margin.*money",
      pyOf "property.*mortgag", pyOf "security.*for.*loan",
      pyOf "documents.*to.*be.*execut", pyOf "simple.*mortgage", pyOf "mortgage.*deed"],
    description := pyOf "Security, collateral, mortgage, and guarantee requirements",
    risk_level := pyOf "medium" }),
  (pyOf "prepayment", {
    keywords := [pyOf "prepayment", pyOf "pre.*payment", pyOf "pre.*payment.*charge",
      pyOf "prepayment.*charge", pyOf "early.*payment", pyOf "early.*repayment",
      pyOf "part.*prepayment", pyOf "full.*prepayment", pyOf "foreclosur",
      pyOf "switchover", pyOf "pre.*payment.*penalty", pyOf "foreclosure.*charge"],
    description := pyOf "Prepayment charges, foreclosure charges, and early repayment terms",
    risk_level := pyOf "low" }),
  (pyOf "insurance_requirement", {
    keywords := [pyOf "life.*insurance", pyOf "insurance.*policy",
      pyOf "insurance.*requirement", pyOf "term.*life.*insurance",
      pyOf "insurance.*premium", pyOf "policy.*assign", pyOf "insurance.*coverag",
      pyOf "insurance.*mandatory", pyOf "compulsory.*insurance", pyOf "health.*insurance",
      pyOf "medical.*insurance"],
    description := pyOf "Insurance requirements, life insurance, and policy assignment",
    risk_level := pyOf "medium" }),
  (pyOf "disbursement", {
    keywords := [pyOf "disbursement", pyOf "disburse.*loan", pyOf "release.*of.*loan",
      pyOf "loan.*disbursement", pyOf "disbursement.*condition",
      pyOf "disbursement.*stage", pyOf "staged.*disbursement",
      pyOf "disbursement.*to.*institution", pyOf "payment.*to.*vendor",
      pyOf "demand.*draft", pyOf "neft", pyOf "rtgs"],
    description := pyOf "Loan disbursement conditions, stages, and payment methods",
    risk_level := pyOf "low" })]

/-! ## Context Extractor (`extract_clause_context`) -/

/-- The sentence-boundary test of the backward scan:
`text[i] in '.!\n'`. -/
def fssBoundaryAt (text : PyStr) (i : Nat) : Bool :=
  pyGet text i == '.' || pyGet text i == '!' || pyGet text i == '\n'

/-- The article-header test of the backward scan:
`i > 0 and text[i-1:i+20].upper().startswith('ARTICLE')`. -/
def fssArticleAt (text : PyStr) (i : Nat) : Bool :=
  i > 0 && pyStartsWith (pyUpper (pySlice text (i - 1) (i + 20))) (pyOf "ARTICLE")

/-- The backward sentence-start scan of `extract_clause_context`
(lines 449-459): iterate `i` upward over
`range(max(0, start_pos - context_chars), start_pos)` and stop at the first
`i` holding a sentence-boundary character (then `i + 1`) or, failing that at
`i`, an `ARTICLE` header beginning at `i - 1` (then `i - 1`); default
`start_pos`. -/
def fssGo (text : PyStr) (start_pos : Nat) : Nat → Nat → Nat
  | _, 0 => start_pos
  | i, fuel + 1 =>
    if i ≥ start_pos then start_pos
    else if fssBoundaryAt text i then i + 1
    else if fssArticleAt text i then i - 1
    else fssGo text start_pos (i + 1) fuel

/-- `sentence_start` computation of `extract_clause_context`. -/
def findSentenceStart (text : PyStr) (start_pos context_chars : Nat) : Nat :=
  fssGo text start_pos (start_pos - context_chars) (start_pos + 1)

/-- Inner backward scan of the forward boundary search: walk `j` downward
from `start` (exclusive lower bound `stop`) looking for `.` or `!`; on a hit
return `j + 1`, otherwise `dflt`. -/
def scanBackPunct (text : PyStr) (stop dflt : Nat) : Nat → Nat → Nat
  | _, 0 => dflt
  | j, fuel + 1 =>
    if j ≤ stop then dflt
    else if pyGet text j == '.' || pyGet text j == '!' then j + 1
    else scanBackPunct text stop dflt (j - 1) fuel

/-- The section-header patterns probed during the forward scan. -/
def sectionHeaderPatterns : List PyStr :=
  [pyOf "[A-Z\\s]\x7b5,\x7d:", pyOf "Special\\s+Terms", pyOf "Pre\\s+Disbursment",
   pyOf "Post\\s+Disbursment"]

/-- The forward sentence-end scan of `extract_clause_context`
(lines 461-514); `cur` is the running value of `sentence_end`. -/
def fseGo (text : PyStr) (end_pos search_end : Nat) : Nat → Nat → Nat → Nat
  | _, 0, cur => cur
  | i, fuel + 1, cur =>
    if i ≥ search_end then cur
    else if i + 2 < text.length && isDigitCh (pyGet text i) && i > 0 &&
        (pyGet text (i - 1) == '.' || pyGet text (i - 1) == ')' ||
          pyGet text (i - 1) == '\n') &&
        i + 1 < text.length &&
        (pyGet text (i + 1) == '.' || pyGet text (i + 1) == ' ') then
      scanBackPunct text (max end_pos (i - 100)) (i - 1) (i - 1) (i + 1)
    else if i + 20 < text.length && i > end_pos + 30 &&
        sectionHeaderPatterns.any
          (fun p => reHas { icase := true } p (pySlice text i (i + 40))) then
      scanBackPunct text (max end_pos (i - 50)) i (i - 1) (i + 1)
    else if pyGet text i == '.' || pyGet text i == '\n' then
      if i + 1 < text.length && isSpaceCh (pyGet text (i + 1)) &&
          i + 2 < text.length && isUpperCh (pyGet text (i + 2)) then i + 1
      else fseGo text end_pos search_end (i + 1) fuel (i + 1)
    else fseGo text end_pos search_end (i + 1) fuel cur

/-- `sentence_end` computation of `extract_clause_context`. -/
def findSentenceEnd (text : PyStr) (end_pos context_chars : Nat) : Nat :=
  let search_end := min text.length (end_pos + context_chars)
  fseGo text end_pos search_end end_pos (search_end + 1) end_pos

/-- The loan-application boilerplate patterns stripped from snippets. -/
def loanDetailPatterns : List PyStr :=
  [pyOf "RIZONA\\s+STATE\\s+UNIVERSITY.*?GUJARAT",
   pyOf "Purpose\\s+of\\s+loan.*?GUJARAT",
   pyOf "Loan\\s+Tenure\\s+\\d+.*?Moratorium\\s+Period\\s+\\d+",
   pyOf "Interest\\s+Type.*?Processing\\s+charges"]

/-- The cleanup-rewrite chain of `extract_clause_context` (lines 525-586),
applied to the raw snippet in source order. -/
def refineClauseText (ct0 : PyStr) : PyStr :=
  let ct := reSub { icase := true } (pyOf "---\\s*Page\\s+\\d+\\s*---") [] ct0
  let ct := reSub { icase := true, multiline := true }
      (pyOf "^\\s*\\|\\s*ARTICLE\\s+\\d+\\.\\s*\\|\\s*[A-Z\\s]+\\s*\\|\\s*\\d+\\s*\\|\\s*$")
      [] ct
  let ct := reSub {} (pyOf "^\\s*\\d+\\.\\s+") [] ct
  let ct := reSub {} (pyOf "\\.(\\d+)\\.\\s*$") (pyOf ".") ct
  let ct := reSub { icase := true } (pyOf "\\s+SP[-\\s]?ecial\\s+Terms.*$") [] ct
  let ct := reSub { icase := true } (pyOf "\\s+Pre\\s+Disbursment.*$") [] ct
  let ct := reSub { icase := true } (pyOf "\\s+Post\\s+Disbursment.*$") [] ct
  let ct := reSub {} (pyOf "\\s+[A-Z]\\.\\s*$") [] ct
  let ct :=
    if reHas { icase := true }
        (pyOf "^The\\s+aforesaid\\s+sanction.*terms\\s+and\\s+conditions:") ct then
      reSub { icase := true, dotall := true }
        (pyOf "^The\\s+aforesaid\\s+sanction.*terms\\s+and\\s+conditions:.*?\\n") [] ct
    else ct
  let ct := loanDetailPatterns.foldl
      (fun acc p => reSub { icase := true, dotall := true } p [] acc) ct
  let ct :=
    if reHas { icase := true }
        (pyOf "Applicant|Co-applicant|Guarantor|Nature\\s+of\\s+loan|Sanction\\s+Amount")
        ct then
      let prepayment_sentences := (reSplit {} (pyOf "[.!?]\\s+") ct).filter (fun s =>
        reHas { icase := true }
          (pyOf "prepayment|foreclosur|switchover|fixed\\s+rate|floating\\s+rate") s)
      if !prepayment_sentences.isEmpty then
        pyJoin (pyOf ". ") prepayment_sentences ++ pyOf "."
      else ct
    else ct
  let ct :=
    if ct.length > 0 && !isUpperCh (pyGet ct 0) && !isDigitCh (pyGet ct 0) then
      if (reMatch { icase := true }
          (pyOf "^(the|a|an|this|that|resident|management|landlord|tenant|borrower)")
          (pySlice ct 0 20)).isNone then
        match reSearch {} (pyOf "[A-Z]") ct with
        | some fc => if fc.mstart > 0 then ct.drop fc.mstart else ct
        | none => ct
      else ct
    else ct
  let ct := reSub {} (pyOf "[ \\t]+") (pyOf " ") ct
  let ct := reSub {} (pyOf "\\n\\s*\\n+") (pyOf "\n\n") ct
  pyStrip ct

/-- The 1200-character length cap of `extract_clause_context`
(lines 592-606). -/
def capClauseLength (clause_text : PyStr) : PyStr :=
  if clause_text.length > 1200 then
    let truncated := clause_text.take 1200
    let last_period := pyRfind truncated '.'
    if last_period > 900 then truncated.take (last_period.toNat + 1)
    else
      let last_newline := pyRfind truncated '\n'
      if last_newline > 900 then truncated.take last_newline.toNat
      else truncated ++ pyOf "..."
  else clause_text

/-- The snippet computation of `extract_clause_context` for one match:
boundary expansion, short-snippet widening, cleanup rewrites, length cap. -/
def clauseSnippet (text : PyStr) (context_chars : Nat) (m : RMatch) : PyStr :=
  let start_pos := m.mstart
  let end_pos := m.mend
  let sentence_start := findSentenceStart text start_pos context_chars
  let sentence_end := findSentenceEnd text end_pos context_chars
  let clause_text := pyStrip (pySlice text sentence_start sentence_end)
  let clause_text :=
    if clause_text.length < 100 then
      pyStrip (pySlice text (start_pos - context_chars)
        (min text.length (end_pos + context_chars)))
    else clause_text
  capClauseLength (refineClauseText clause_text)

/-- The article-number search of `extract_clause_context`: an
`ARTICLE <number>` marker in the 200 characters before the match start plus
100 after. -/
def articleNumAt (text : PyStr) (start_pos : Nat) : Option PyStr :=
  let article_window := pySlice text (start_pos - 200) (start_pos + 100)
  (reSearch { icase := true } (pyOf "ARTICLE\\s+(\\d+)") article_window).bind
    (fun am => groupStr article_window am 1)

/-- `extract_clause_context(text, pattern, context_chars=500)`: every
case-insensitive match of `pattern`, expanded to sentence boundaries,
cleaned up, length-capped, with the nearby article number attached. -/
def extract_clause_context (text : PyStr) (pattern : PyStr)
    (context_chars : Nat := 500) : List ClauseInstance :=
  (reFinditer { icase := true, multiline := true } pattern text).map (fun m =>
    { text := clauseSnippet text context_chars m,
      matched := pySlice text m.mstart m.mend,
      position := m.mstart, article := articleNumAt text m.mstart })

/-! ## Relevance Filter (`is_relevant_clause`) -/

/-- The addendum/rider vocabulary probed by `is_relevant_clause`. -/
def addendumKeywords : List PyStr :=
  [pyOf "valet\\s+trash", pyOf "bicycle.*rider", pyOf "storage.*unit",
   pyOf "pet.*addendum", pyOf "pool.*area", pyOf "amenity.*space",
   pyOf "parking.*permit", pyOf "garage.*space", pyOf "containers?.*trash",
   pyOf "rider.*bicycle"]

/-- `is_relevant_clause(match, clause_type)`: the universal rejections, the
addendum-specificity check, and the per-category positive-evidence rules,
transcribed from the source's early-return chain. -/
def is_relevant_clause (m : ClauseInstance) (clause_type : PyStr) : Bool :=
  let text := pyLower m.text
  let original_text := m.text
  if reHas { icase := true } (pyOf "^\\s*article\\s+\\d+\\.\\s*\\w+\\s+\\d+\\s*$") text then
    false
  else if reHas {} (pyOf "^(page|p\\.?)\\s*\\d+$") (pyStrip text) then false
  else if (pyStrip text).length < 50 then false
  else if (reMatch { icase := true } (pyOf "^\\s*section\\s+\\d+\\.\\d+\\.?\\s*$")
      (pyStrip text)).isSome then false
  else if (reMatch { icase := true } (pyOf "^\\s*article\\s+\\d+\\.\\s*[A-Z\\s]+$")
      text).isSome then false
  else
    let is_addendum_specific :=
      addendumKeywords.any (fun p => reHas { icase := true } p text)
    let addendumReject :=
      if is_addendum_specific then
        let has_core_info :=
          reHas { icase := true }
            (pyOf "\\$\\s*\\d+|amount|fee|deposit|rent|term|obligation|liability") text ||
          reHas { icase := true } (pyOf "\\d+\\s*(month|year|day)") text ||
          original_text.length > 200
        let is_very_specific :=
          reHas { icase := true } (pyOf "bicycle|rider.*bicycle|trash.*container") text
        let verySpecificReject :=
          if is_very_specific then
            let has_significant_impact :=
              reHas { icase := true }
                (pyOf "\\$\\s*\\d+|liability|damage|responsible|obligation") text &&
              original_text.length > 100
            !has_significant_impact
          else false
        verySpecificReject || !has_core_info
      else false
    if addendumReject then false
    else if clause_type == pyOf "security_deposit" &&
        !(reHas { icase := true } (pyOf "\\$\\s*\\d+|amount|refund|deposit") text) then
      false
    else if clause_type == pyOf "rent_increase" &&
        !(reHas { icase := true }
          (pyOf "\\d+%|increas|escalat|\\$\\s*\\d+.*per|annum|annual") text) then
      false
    else if clause_type == pyOf "duration_term" &&
        (let has_payment_keywords :=
           reHas { icase := true }
             (pyOf "payment|fee|amount.*disclose|invoice|due.*date") text
         let has_duration :=
           reHas { icase := true } (pyOf "\\d+\\s*(month|year|day)") text ||
           reHas {} (pyOf "\\d\x7b1,2\x7d[/-]\\d\x7b1,2\x7d[/-]\\d\x7b2,4\x7d") text ||
           reHas { icase := true } (pyOf "commenc|start|begin|end|expir|terminat") text
         (has_payment_keywords && !has_duration) || !has_duration) then
      false
    else if clause_type == pyOf "payment" &&
        (let is_warranty_text :=
           reHas { icase := true }
             (pyOf "\\bwarrant\\b(?!.*fee)|\\bguarantee\\b(?!.*payment)") text ||
           reHas { icase := true } (pyOf "fair.*reasonable.*compensation") text
         let has_fee_in_warranty :=
           reHas { icase := true }
             (pyOf "(late\\s+fee|reversal\\s+fee|nsf\\s+charge|payment.*fee)") text
         let has_payment_info :=
           reHas { icase := true }
             (pyOf "[\\$\\₹]\\s*\\d+|amount|fee|payment|rent|installment|emi") text ||
           reHas { icase := true } (pyOf "per\\s+month|monthly|annual|due\\s+date") text ||
           reHas { icase := true } (pyOf "deviation.*charge|processing.*charge") text
         (is_warranty_text && !has_fee_in_warranty) || !has_payment_info) then
      false
    else if clause_type == pyOf "warranty" &&
        (let is_payment_text :=
           reHas { icase := true }
             (pyOf "late\\s+fee|reversal\\s+fee|nsf\\s+charge|payment.*due|invoice") text &&
           !(reHas { icase := true } (pyOf "\\bwarrant\\b|\\bguarantee\\b") text)
         let is_trash_fine_rule :=
           reHas { icase := true }
             (pyOf "containers?.*trash|trash.*container|fine.*per.*bag|violation.*fine")
             text
         let has_warranty_language :=
           reHas { icase := true } (pyOf "\\bwarrant(?:y|ies)\\b") text ||
           reHas { icase := true } (pyOf "\\bguarantee\\b") text ||
           reHas { icase := true }
             (pyOf "\\bwarrant\\b.*\\b(?:product|service|workmanship|condition)") text ||
           reHas { icase := true } (pyOf "(?:no|disclaim).*warrant") text ||
           reHas { icase := true } (pyOf "as.*is.*warrant") text
         is_payment_text || is_trash_fine_rule || !has_warranty_language) then
      false
    else if clause_type == pyOf "interest_rate" &&
        !(reHas { icase := true }
            (pyOf "\\d+\\.?\\d*%|percent|rate.*of.*interest|interest.*rate|eblr|spread")
            text ||
          reHas { icase := true } (pyOf "floating|fixed.*rate") text) then
      false
    else if clause_type == pyOf "loan_tenure" &&
        !(reHas { icase := true } (pyOf "\\d+\\s*(month|year)") text ||
          reHas { icase := true } (pyOf "tenure|term.*of.*loan|repayment.*period") text) then
      false
    else if clause_type == pyOf "moratorium" &&
        !(reHas { icase := true }
            (pyOf "moratorium|grace.*period|deferment|payment.*holiday") text ||
          reHas { icase := true } (pyOf "\\d+\\s*(month|year).*moratorium") text) then
      false
    else if clause_type == pyOf "penal_interest" &&
        !(reHas { icase := true }
            (pyOf "penal.*interest|penalty.*interest|overdue|default.*interest") text ||
          reHas { icase := true } (pyOf "\\d+%.*overdue|\\d+%.*penal") text) then
      false
    else if clause_type == pyOf "security_collateral" &&
        ((reHas { icase := true } (pyOf "security.*deposit.*refund") text &&
          !(reHas { icase := true } (pyOf "loan|mortgage|collateral") text)) ||
         !(reHas { icase := true }
             (pyOf "security|collateral|mortgage|hypothecat|guarantor|guarantee") text ||
           reHas { icase := true } (pyOf "security.*document|mortgage.*deed") text)) then
      false
    else if clause_type == pyOf "prepayment" &&
        !(reHas { icase := true }
            (pyOf "prepayment|foreclosur|early.*repayment|switchover") text ||
          reHas { icase := true } (pyOf "pre.*payment.*charge") text) then
      false
    else if clause_type == pyOf "insurance_requirement" &&
        !(reHas { icase := true } (pyOf "insurance|policy|premium") text ||
          reHas { icase := true } (pyOf "life.*insurance|term.*life") text) then
      false
    else if clause_type == pyOf "disbursement" &&
        !(reHas { icase := true } (pyOf "disbursement|release.*loan|disburse") text ||
          reHas { icase := true }
            (pyOf "staged.*disbursement|demand.*draft|neft|rtgs") text) then
      false
    else true

/-! ## Deduplicator (`texts_similar` and the accumulation loop) -/

/-- `texts_similar(text1, text2, threshold=0.7)`: word-set Jaccard
similarity of the lowercased texts reaches the threshold.  The threshold
`0.7` is carried as the exact ratio `7/10` and the float comparison
`intersection / union >= threshold` is transcribed as the cross-multiplied
integer comparison (`similarity = intersection/union if union > 0 else 0`,
so numerator/denominator are taken accordingly); for word-set sizes below
`2^50` this is exactly Python's float comparison. -/
def texts_similar (text1 text2 : PyStr) (thresholdNum : Nat := 7)
    (thresholdDen : Nat := 10) : Bool :=
  let words1 := (wordRuns (pyLower text1)).toFinset
  let words2 := (wordRuns (pyLower text2)).toFinset
  if words1 = ∅ ∨ words2 = ∅ then false
  else
    let intersection : Nat := (words1 ∩ words2).card
    let union : Nat := (words1 ∪ words2).card
    let similarityNum : Nat := if union > 0 then intersection else 0
    let similarityDen : Nat := if union > 0 then union else 1
    decide (thresholdNum * similarityDen ≤ similarityNum * thresholdDen)

/-- The duplicate test of the accumulation loop in `extract_all_clauses`
(lines 671-680): the candidate is a duplicate of some already-accepted
instance by text similarity (threshold 0.7) or by position proximity. -/
def isDuplicateOf (found : List ClauseInstance) (m : ClauseInstance) : Bool :=
  found.any (fun existing =>
    texts_similar existing.text m.text 7 10 ||
    decide (Nat.dist existing.position m.position < 200))

/-- One step of the accumulation loop of `extract_all_clauses`
(lines 665-683): filter irrelevant candidates, drop duplicates, append
survivors. -/
def accumStep (clause_type : PyStr) (acc : List ClauseInstance)
    (m : ClauseInstance) : List ClauseInstance :=
  if is_relevant_clause m clause_type then
    if isDuplicateOf acc m then acc else acc ++ [m]
  else acc

/-! ## Prioritizer/Limiter (`prioritize_and_limit_clauses`) -/

/-- Stable insertion: `x` goes before the first element not strictly before
it.  For a strict weak order `lt` this reproduces Python's stable
`list.sort`. -/
def pyInsertBy (lt : α → α → Bool) (x : α) : List α → List α
  | [] => [x]
  | y :: ys => if lt y x then y :: pyInsertBy lt x ys else x :: y :: ys

/-- Stable sort by a strict comparison (Python `list.sort`). -/
def pySortBy (lt : α → α → Bool) : List α → List α
  | [] => []
  | x :: xs => pyInsertBy lt x (pySortBy lt xs)

/-- Python truthiness of `c.get('article')`: present and non-empty. -/
def hasArticleVal (c : ClauseInstance) : Bool :=
  match c.article with
  | none => false
  | some s => !s.isEmpty

/-- The sort key of the article group:
`(int(article) if article and article.isdigit() else 999, position)`. -/
def articleSortKey (c : ClauseInstance) : Nat × Nat :=
  ((match c.article with
    | some s => if pyIsDigit s then natOfDigits s else 999
    | none => 999), c.position)

/-- Strict lexicographic comparison on `Nat × Nat` (Python tuple `<`). -/
def keyLtN2 (a b : Nat × Nat) : Bool := a.1 < b.1 || (a.1 == b.1 && a.2 < b.2)

/-- The per-category instance caps (`limits` table inside
`prioritize_and_limit_clauses`). -/
def limits : List (PyStr × Nat) :=
  [(pyOf "default_remedies", 3), (pyOf "subletting", 2), (pyOf "security_deposit", 2),
   (pyOf "payment", 3), (pyOf "indemnity", 2), (pyOf "liability", 2),
   (pyOf "rent_increase", 2), (pyOf "dispute_resolution", 2), (pyOf "warranty", 2),
   (pyOf "duration_term", 2), (pyOf "obligations_duties", 3),
   (pyOf "modifications_amendments", 2), (pyOf "data_information", 2),
   (pyOf "calculation_methodology", 2), (pyOf "interest_rate", 2),
   (pyOf "loan_tenure", 2), (pyOf "moratorium", 2), (pyOf "penal_interest", 2),
   (pyOf "security_collateral", 3), (pyOf "prepayment", 2),
   (pyOf "insurance_requirement", 2), (pyOf "disbursement", 2)]

/-- `limits.get(clause_type, 3)`. -/
def configured_cap (clause_type : PyStr) : Nat :=
  match limits.find? (fun e => e.1 == clause_type) with
  | some e => e.2
  | none => 3

/-- `prioritize_and_limit_clauses(clauses, clause_type)`: article-numbered
instances first (ascending numeric article, ties by position), then the
rest by descending snippet length, truncated to the category cap. -/
def prioritize_and_limit_clauses (clauses : List ClauseInstance)
    (clause_type : PyStr) : List ClauseInstance :=
  if clauses.isEmpty then []
  else
    let with_article := clauses.filter hasArticleVal
    let without_article := clauses.filter (fun c => !hasArticleVal c)
    let with_article :=
      pySortBy (fun a b => keyLtN2 (articleSortKey a) (articleSortKey b)) with_article
    let without_article :=
      pySortBy (fun a b => b.text.length < a.text.length) without_article
    let prioritized := with_article ++ without_article
    prioritized.take (configured_cap clause_type)

/-! ## Pipeline Orchestrator (`extract_all_clauses`) -/

/-- The per-category accumulation of `extract_all_clauses`: run every
keyword pattern (wrapped in word boundaries) through the context extractor
and fold the candidates through relevance filtering and deduplication. -/
def collectClauses (contract_text : PyStr) (clause_type : PyStr)
    (info : ClauseInfo) : List ClauseInstance :=
  info.keywords.foldl (fun acc kw =>
    let pattern := pyOf "\\b" ++ kw ++ pyOf "\\b"
    (extract_clause_context contract_text pattern).foldl (accumStep clause_type) acc) []

/-- The per-category group assembly of `extract_all_clauses`: collect,
prioritize and cap; emit a group only if instances survive. -/
def buildGroup (contract_text : PyStr) (entry : PyStr × ClauseInfo) :
    Option ClauseGroup :=
  let found := collectClauses contract_text entry.1 entry.2
  let found := prioritize_and_limit_clauses found entry.1
  if found.isEmpty then none
  else
    some { type := entry.1, description := entry.2.description,
           risk_level := entry.2.risk_level, clauses := found,
           count := found.length }

/-- `extract_all_clauses(contract_text)`. -/
def extract_all_clauses (contract_text : PyStr) : List ClauseGroup :=
  if contract_text.isEmpty then []
  else CLAUSE_PATTERNS.filterMap (buildGroup contract_text)

/-- The dynamic call `extract_all_clauses(None)`: the source's falsiness
guard `if not contract_text` covers both the empty string and `None`, so a
missing document takes the empty-result branch. -/
def extract_all_clauses_maybe (contract_text : Option PyStr) : List ClauseGroup :=
  match contract_text with
  | none => []
  | some t => extract_all_clauses t

/-! ## Risk assessment fallback and summarizer (`ai_analyzer.py`) -/

/-- One entry of the `clause_risks` list of a risk assessment. -/
structure ClauseRisk where
  clause_type : PyStr
  risk_level : PyStr
  risk_explanation : PyStr
  concerns : List PyStr
  recommendations : PyStr
deriving Repr, DecidableEq

/-- The risk-assessment structure returned by `create_basic_risk_assessment`. -/
structure RiskAssessment where
  overall_risk_level : PyStr
  overall_summary : PyStr
  clause_risks : List ClauseRisk
deriving Repr, DecidableEq

/-- The hard-coded `high_risk_types` list of `create_basic_risk_assessment`. -/
def high_risk_types : List PyStr := [pyOf "indemnity", pyOf "liability"]

/-- `create_basic_risk_assessment(extracted_clauses)`: the deterministic
fallback risk assessment used when the generation service is unavailable or
its response is malformed. -/
def create_basic_risk_assessment (extracted_clauses : List ClauseGroup) :
    RiskAssessment :=
  if extracted_clauses.isEmpty then
    { overall_risk_level := pyOf "LOW",
      overall_summary := pyOf "No key clauses detected. This contract appears standard, but review all terms carefully.",
      clause_risks := [] }
  else
    let high_risk_count :=
      extracted_clauses.countP (fun c => high_risk_types.contains c.type)
    let medium_risk_count :=
      extracted_clauses.countP (fun c => c.risk_level == pyOf "medium")
    let overall_risk :=
      if high_risk_count > 0 then pyOf "HIGH"
      else if medium_risk_count > 2 then pyOf "MEDIUM"
      else pyOf "LOW"
    let clause_types :=
      extracted_clauses.map (fun c => pyTitle (pyReplaceCh '_' ' ' c.type))
    let summary := pyOf "This contract contains " ++
      natRepr extracted_clauses.length ++ pyOf " key clause types: " ++
      pyJoin (pyOf ", ") (clause_types.take 5) ++ pyOf "."
    let summary :=
      if high_risk_count > 0 then
        summary ++ pyOf " High-risk clauses detected. Review carefully with legal counsel."
      else summary
    let clause_risks := extracted_clauses.map (fun clause_data =>
      let concerns :=
        if clause_data.type == pyOf "auto_renewal" then
          [pyOf "Contract may auto-renew without notice"]
        else if clause_data.type == pyOf "indemnity" then
          [pyOf "You may be liable for damages"]
        else if clause_data.type == pyOf "termination" then
          [pyOf "Review termination conditions carefully"]
        else []
      { clause_type := clause_data.type,
        risk_level := pyUpper clause_data.risk_level,
        risk_explanation := pyOf "Found " ++ natRepr clause_data.count ++
          pyOf " instance(s). " ++ clause_data.description ++ pyOf ".",
        concerns := concerns,
        recommendations := pyOf "Review this clause carefully and consider negotiating terms." })
    { overall_risk_level := overall_risk, overall_summary := summary,
      clause_risks := clause_risks }

/-- The disclaimer phrases treated as "no data found" by
`summarize_clause_text`. -/
def fallbackPhrases : List PyStr :=
  [pyOf "not explicitly stated", pyOf "not mentioned", pyOf "not provided",
   pyOf "not specified", pyOf "cannot find", pyOf "unable to find",
   pyOf "not found in", pyOf "no information", pyOf "not available",
   pyOf "does not contain", pyOf "lacks information"]

/-- The numeric-evidence test `has_numbers` of `summarize_clause_text`. -/
def hasNumberEvidence (clause_text : PyStr) : Bool :=
  reHas {} (pyOf "\\$?\\d+[,\\d]*(?:\\.\\d+)?%?") clause_text

/-- The date-evidence test `has_dates` of `summarize_clause_text`. -/
def hasDateEvidence (clause_text : PyStr) : Bool :=
  reHas { icase := true }
    (pyOf "\\d\x7b1,2\x7d[/-]\\d\x7b1,2\x7d[/-]\\d\x7b2,4\x7d|\\d+\\s+(january|february|march|april|may|june|july|august|september|october|november|december)")
    clause_text

/-- The response normalisation of `summarize_clause_text`:
`response.strip().strip('"').strip("'")`. -/
def respStripped (response : PyStr) : PyStr :=
  pyStripChar '\'' (pyStripChar '"' (pyStrip response))

/-- The sentinel test of `summarize_clause_text`:
`summary_lower == 'none' or summary_lower.startswith('none')`. -/
def isSentinelResp (response : PyStr) : Bool :=
  pyLower (respStripped response) == pyOf "none" ||
  pyStartsWith (pyLower (respStripped response)) (pyOf "none")

/-- The disclaimer test `is_fallback` of `summarize_clause_text`: some
fallback phrase occurs in the lowercased response. -/
def isDisclaimerResp (response : PyStr) : Bool :=
  fallbackPhrases.any (fun ph => pyContains (pyLower (respStripped response)) ph)

/-- The extractive fallback of `summarize_clause_text`: the first sentence
(splitting on `[.!?]+`) whose stripped form exceeds 30 characters and
either carries digits / `amount` / `fee` / `payment` or exceeds 50
characters. -/
def firstEvidenceSentence (clause_text : PyStr) : Option PyStr :=
  (reSplit {} (pyOf "[.!?]+") clause_text).find? (fun sent0 =>
    let sent := pyStrip sent0
    sent.length > 30 &&
      (reHas { icase := true } (pyOf "\\$?\\d+|amount|fee|payment") sent ||
       sent.length > 50))

/-- Response post-processing of `summarize_clause_text`
(`ai_analyzer.py` lines 576-626).  The call to the external generation
service is out of scope (spec §6); `response_content` is the service's
response text, and everything deterministic that the source does with it is
transcribed here: strip quotes, treat `NONE`-sentinel responses as absent,
treat disclaimer-phrased responses as absent with an extractive fallback
when the source text is long and carries numeric/date evidence. -/
def summarize_clause_response (response_content : PyStr) (clause_text : PyStr) :
    Option PyStr :=
  let summary := respStripped response_content
  if isSentinelResp response_content then none
  else
    let is_fallback := isDisclaimerResp response_content
    if is_fallback && (pyStrip clause_text).length > 100 then
      if hasNumberEvidence clause_text || hasDateEvidence clause_text then
        match firstEvidenceSentence clause_text with
        | some sent0 => some (pyStrip sent0 ++ pyOf ".")
        | none => none
      else none
    else if is_fallback then none
    else some summary

/-- `add_clause_summaries(extracted_clauses)`: attach generated summary
sentences to the instances of each group.  The summarizer (which calls the
external generation service) is passed as a function
`text → clause type → article → optional summary`. -/
def add_clause_summaries (summarize : PyStr → PyStr → Option PyStr → Option PyStr)
    (extracted_clauses : List ClauseGroup) : List ClauseGroup :=
  extracted_clauses.filterMap (fun clause_group =>
    let instances_to_summarize := clause_group.clauses.take 3
    let enhanced_instances := instances_to_summarize.map (fun inst =>
      match summarize inst.text clause_group.type inst.article with
      | some s => { inst with summary := some s }
      | none => inst)
    if enhanced_instances.isEmpty then none
    else some { clause_group with clauses := enhanced_instances })

/-! ## Claim-side definitions

Definitions transcribing the *specification's* wording (not the source),
used to compare spec and code where they disagree. -/

/-- The fallback overall risk level as claim C1 words it: `HIGH` if any
group whose `risk_level` is `high` is present, `MEDIUM` if more than 2
groups whose `risk_level` is `medium` are present, `LOW` otherwise. -/
def claimedFallbackRiskLevel (groups : List ClauseGroup) : PyStr :=
  if groups.any (fun c => c.risk_level == pyOf "high") then pyOf "HIGH"
  else if 2 < groups.countP (fun c => c.risk_level == pyOf "medium") then pyOf "MEDIUM"
  else pyOf "LOW"

/-! ## Claim C8 -/

/-- C8: `extract_all_clauses` applied to the empty string returns the empty
list, and applied to a missing (`None`-equivalent) document text also
returns the empty list (the total Lean function models absence of an
exception). -/
theorem c8_empty_and_missing_input :
    extract_all_clauses (pyOf "") = [] ∧ extract_all_clauses_maybe none = [] :=
  ⟨rfl, rfl⟩

/-! ## Claim C1 -/

/-- A clause group of the `default_remedies` category, exactly as the
extractor labels it (`risk_level = "high"` per the catalog). -/
def drGroupCex : ClauseGroup :=
  { type := pyOf "default_remedies",
    description := pyOf "Default, breach, and remedy provisions",
    risk_level := pyOf "high",
    clauses := [{ text := pyOf "In the event of default under lease, the landlord may pursue all remedies available at law.",
                  matched := pyOf "default under lease", position := 0, article := none }],
    count := 1 }

/-- C1 counterexample: on a group list containing one `default_remedies`
group — whose `risk_level` is `high` — the deterministic fallback returns
`LOW`, not the `HIGH` the claim's rule dictates: the code keys the `HIGH`
branch on the hard-coded type list `['indemnity', 'liability']`, not on the
groups' risk levels. -/
theorem c1_counterexample :
    drGroupCex.risk_level = pyOf "high" ∧
    (create_basic_risk_assessment [drGroupCex]).overall_risk_level = pyOf "LOW" ∧
    claimedFallbackRiskLevel [drGroupCex] = pyOf "HIGH" ∧
    (create_basic_risk_assessment [drGroupCex]).overall_risk_level ≠
      claimedFallbackRiskLevel [drGroupCex] := by
  refine ⟨rfl, by decide, by decide, by decide⟩

/-- C1 amended: the deterministic fallback returns `HIGH` iff a group whose
*type* is `indemnity` or `liability` is present (regardless of risk level),
else `MEDIUM` iff more than 2 groups whose `risk_level` is `medium` are
present, else `LOW` (an empty group list yields `LOW`). -/
theorem c1_fallback_risk_amended (groups : List ClauseGroup) :
    (create_basic_risk_assessment groups).overall_risk_level =
      (if ∃ c ∈ groups, c.type = pyOf "indemnity" ∨ c.type = pyOf "liability" then
        pyOf "HIGH"
       else if 2 < groups.countP (fun c => c.risk_level == pyOf "medium") then
        pyOf "MEDIUM"
       else pyOf "LOW") := by
  rcases groups with _ | ⟨g, gs⟩
  · simp [create_basic_risk_assessment]
  · have hiff : (0 < (g :: gs).countP (fun c => high_risk_types.contains c.type)) ↔
        (∃ c ∈ g :: gs, c.type = pyOf "indemnity" ∨ c.type = pyOf "liability") := by
      rw [List.countP_pos_iff]
      simp [high_risk_types]
    simp only [create_basic_risk_assessment, List.isEmpty_cons, Bool.false_eq_true,
      if_false]
    simp only [hiff]

/-! ## Claim C10 -/

/-- The fourth instance of the C10 group — the one past the top-3 cut. -/
def c10Inst4 : ClauseInstance :=
  { text := pyOf "Processing charges of $45 apply to each returned payment instrument.",
    matched := pyOf "processing charge", position := 1100, article := none }

/-- A payment group with four surviving instances, used to exercise
`add_clause_summaries` past the top-3 cut. -/
def c10GroupCex : ClauseGroup :=
  { type := pyOf "payment",
    description := pyOf "Payment terms, fees, rent schedules, and financial obligations",
    risk_level := pyOf "low",
    clauses :=
      [{ text := pyOf "Base rent of $1800 is payable on the first of each month without demand.",
         matched := pyOf "base rent", position := 0, article := none },
       { text := pyOf "A late fee of $90 applies to any payment received after the fifth day.",
         matched := pyOf "late fee", position := 300, article := none },
       { text := pyOf "Invoices for utilities are issued quarterly and due within thirty days.",
         matched := pyOf "invoice", position := 700, article := none },
       c10Inst4],
    count := 4 }

/-- C10 counterexample: `add_clause_summaries` keeps only the first 3
instances of a 4-instance group — the fourth instance is *dropped*, not
retained without a summary field as the claim states (the code rebuilds the
group's instance list from `clauses[:3]` only). -/
theorem c10_counterexample :
    c10GroupCex.clauses.length = 4 ∧
    (add_clause_summaries (fun _ _ _ => none) [c10GroupCex]).map
      (fun g => g.clauses.length) = [3] ∧
    c10Inst4 ∈ c10GroupCex.clauses ∧
    (add_clause_summaries (fun _ _ _ => none) [c10GroupCex]).all
      (fun g => !g.clauses.contains c10Inst4) = true := by
  refine ⟨rfl, by decide, by decide, by decide⟩

/-- C10 amended: for groups with at least one instance,
`add_clause_summaries` returns the groups in order with `type`,
`description`, `risk_level` and `count` unchanged, and each group's instance
list replaced by its first 3 instances only (later instances are dropped);
each retained instance is identical to its input except that a `summary`
field is attached when the summarizer yields one. -/
theorem c10_add_summaries_amended
    (summarize : PyStr → PyStr → Option PyStr → Option PyStr)
    (groups : List ClauseGroup) (h : ∀ g ∈ groups, g.clauses ≠ []) :
    List.Forall₂ (fun (g g' : ClauseGroup) =>
      g'.type = g.type ∧ g'.description = g.description ∧
      g'.risk_level = g.risk_level ∧ g'.count = g.count ∧
      List.Forall₂ (fun (i i' : ClauseInstance) =>
        i'.text = i.text ∧ i'.matched = i.matched ∧ i'.position = i.position ∧
        i'.article = i.article ∧
        (i'.summary = summarize i.text g.type i.article ∨ i'.summary = i.summary))
        (g.clauses.take 3) g'.clauses)
      groups (add_clause_summaries summarize groups) := by
  induction groups with
  | nil => exact List.Forall₂.nil
  | cons g gs ih =>
    have hg : g.clauses ≠ [] := h g (List.mem_cons_self g gs)
    have htake : (g.clauses.take 3) ≠ [] := by
      cases hcl : g.clauses with
      | nil => exact absurd hcl hg
      | cons i is => simp
    have hmapne : ((g.clauses.take 3).map (fun inst =>
        match summarize inst.text g.type inst.article with
        | some s => { inst with summary := some s }
        | none => inst)) ≠ [] := by
      simpa using htake
    have hstep : add_clause_summaries summarize (g :: gs) =
        ({ g with clauses := (g.clauses.take 3).map (fun inst =>
            match summarize inst.text g.type inst.article with
            | some s => { inst with summary := some s }
            | none => inst) }) :: add_clause_summaries summarize gs := by
      simp only [add_clause_summaries, List.filterMap_cons]
      rw [if_neg (by simpa using hmapne)]
    rw [hstep]
    refine List.Forall₂.cons ?_ (ih (fun g' hg' => h g' (List.mem_cons_of_mem _ hg')))
    refine ⟨rfl, rfl, rfl, rfl, ?_⟩
    rw [List.forall₂_map_right_iff]
    rw [List.forall₂_same]
    intro i _
    cases hsum : summarize i.text g.type i.article with
    | none => simp [hsum]
    | some s => simp [hsum]

/-- C10 amended witness: the amended statement at the four-instance group
with a summarizer that yields nothing. -/
theorem c10_add_summaries_amended_witness :
    List.Forall₂ (fun (g g' : ClauseGroup) =>
      g'.type = g.type ∧ g'.description = g.description ∧
      g'.risk_level = g.risk_level ∧ g'.count = g.count ∧
      List.Forall₂ (fun (i i' : ClauseInstance) =>
        i'.text = i.text ∧ i'.matched = i.matched ∧ i'.position = i.position ∧
        i'.article = i.article ∧
        (i'.summary = (fun (_ _ : PyStr) (_ : Option PyStr) => (none : Option PyStr))
            i.text g.type i.article ∨
         i'.summary = i.summary))
        (g.clauses.take 3) g'.clauses)
      [c10GroupCex]
      (add_clause_summaries (fun _ _ _ => none) [c10GroupCex]) :=
  c10_add_summaries_amended (fun _ _ _ => none) [c10GroupCex] (by decide)

/-! ## Claim C7 -/

/-- A clause text longer than 100 characters that carries explicit numeric
evidence. -/
def c7SourceText : PyStr :=
  pyOf "The penal interest rate is 2% per month on overdue amounts and a fee of $25 applies to each missed payment cycle."

/-- C7 counterexample: on the sentinel response `"NONE"`, the summarizer
returns `none` even though the source text carries explicit numeric
evidence — the evidence-extraction fallback runs only for
disclaimer-phrased responses (as the contrasting disclaimer case on the
same source text shows), not for the sentinel. -/
theorem c7_counterexample :
    hasNumberEvidence c7SourceText = true ∧
    (pyStrip c7SourceText).length > 100 ∧
    summarize_clause_response (pyOf "NONE") c7SourceText = none ∧
    summarize_clause_response (pyOf "The amount is not specified in the clause.")
        c7SourceText ≠ none := by
  refine ⟨by decide, by decide, by decide, by decide⟩

/-- C7 amended: the sentinel `NONE` response yields `none` unconditionally;
a (non-sentinel) disclaimer-phrased response yields `none` when the source
text is at most 100 characters once stripped or has no numeric/date
evidence, and otherwise yields the first evidence sentence of the source
text (with a period appended) — `none` when no sentence qualifies. -/
theorem c7_summarizer_absent_amended (response clause_text : PyStr) :
    (isSentinelResp response = true →
      summarize_clause_response response clause_text = none) ∧
    (isSentinelResp response = false → isDisclaimerResp response = true →
      ((pyStrip clause_text).length ≤ 100 ∨
        (hasNumberEvidence clause_text = false ∧ hasDateEvidence clause_text = false)) →
      summarize_clause_response response clause_text = none) ∧
    (isSentinelResp response = false → isDisclaimerResp response = true →
      (pyStrip clause_text).length > 100 →
      (hasNumberEvidence clause_text = true ∨ hasDateEvidence clause_text = true) →
      summarize_clause_response response clause_text =
        (firstEvidenceSentence clause_text).map (fun s => pyStrip s ++ pyOf ".")) := by
  refine ⟨?_, ?_, ?_⟩
  · intro hs
    simp [summarize_clause_response, hs]
  · intro hs hd hcase
    by_cases hlen : 100 < (pyStrip clause_text).length
    · rcases hcase with hle | ⟨hn, hdt⟩
      · omega
      · simp [summarize_clause_response, hs, hd, hlen, hn, hdt]
    · simp [summarize_clause_response, hs, hd, hlen]
  · intro hs hd hlen hev
    have : (hasNumberEvidence clause_text || hasDateEvidence clause_text) = true := by
      rcases hev with h | h <;> simp [h]
    simp only [summarize_clause_response, hs, hd, if_false, Bool.true_and, hlen,
      if_true, this]
    cases hfe : firstEvidenceSentence clause_text <;> simp [hfe, hlen]

/-- C7 amended witness: the three branches at concrete inputs — sentinel
with evidence-rich text, disclaimer with a short text, disclaimer with the
evidence-rich text. -/
theorem c7_summarizer_absent_amended_witness :
    summarize_clause_response (pyOf "NONE") c7SourceText = none ∧
    summarize_clause_response (pyOf "not specified") (pyOf "xy") = none ∧
    summarize_clause_response (pyOf "not specified") c7SourceText =
      (firstEvidenceSentence c7SourceText).map (fun s => pyStrip s ++ pyOf ".") :=
  ⟨(c7_summarizer_absent_amended (pyOf "NONE") c7SourceText).1 (by decide),
   (c7_summarizer_absent_amended (pyOf "not specified") (pyOf "xy")).2.1
     (by decide) (by decide) (Or.inl (by decide)),
   (c7_summarizer_absent_amended (pyOf "not specified") c7SourceText).2.2
     (by decide) (by decide) (by decide) (Or.inl (by decide))⟩

/-! ## Claim C5 -/

/-- Text with two sentence boundaries inside the backward window of a match
at position 6 (`"match"`). -/
def c5Text : PyStr := pyOf "a. b. match"

/-- C5 counterexample: with boundaries at indices 1 and 4 in the backward
window of a match at position 6, the scan picks the boundary *farthest*
from the match (index 1, snippet start 2), not the nearest one (index 4,
snippet start 5) as the claim states: the loop iterates the window from its
far end forward and stops at the first boundary it meets. -/
theorem c5_counterexample :
    fssBoundaryAt c5Text 1 = true ∧ fssBoundaryAt c5Text 4 = true ∧
    findSentenceStart c5Text 6 500 = 2 ∧
    findSentenceStart c5Text 6 500 ≠ 4 + 1 := by
  refine ⟨by decide, by decide, by decide, by decide⟩

/-- Behaviour of the backward scan loop: if `i` is the least qualifying
index at or beyond the scan's current position, the scan returns the value
determined at `i`. -/
theorem fssGo_spec (text : PyStr) (start_pos i : Nat) :
    ∀ (fuel p : Nat), p ≤ i → i < start_pos → i - p < fuel →
    (∀ j, p ≤ j → j < i → fssBoundaryAt text j = false ∧ fssArticleAt text j = false) →
    (fssBoundaryAt text i = true ∨ fssArticleAt text i = true) →
    fssGo text start_pos p fuel = (if fssBoundaryAt text i then i + 1 else i - 1) := by
  intro fuel
  induction fuel with
  | zero => intro p _ _ hf; omega
  | succ fuel ih =>
    intro p hpi hlt _ hmin hP
    by_cases hpe : p = i
    · subst hpe
      rcases hP with hb | ha
      · simp [fssGo, Nat.not_le.mpr hlt, hb]
      · cases hb : fssBoundaryAt text p with
        | true => simp [fssGo, Nat.not_le.mpr hlt, hb]
        | false => simp [fssGo, Nat.not_le.mpr hlt, hb, ha]
    · have hpj := hmin p (le_refl p) (by omega)
      have : fssGo text start_pos p (fuel + 1) = fssGo text start_pos (p + 1) fuel := by
        simp [fssGo, Nat.not_le.mpr (by omega : p < start_pos), hpj.1, hpj.2]
      rw [this]
      exact ih (p + 1) (by omega) hlt (by omega)
        (fun j h1 h2 => hmin j (by omega) h2) hP

/-- C5 amended: `sentence_start` is determined by the *first* qualifying
position in the forward iteration over the backward window — i.e. the
boundary farthest from the match within `context_radius` (the one nearest
the window's far end), taking `i + 1` for a sentence-boundary character and
`i - 1` for an `ARTICLE` header. -/
theorem c5_sentence_start_amended (text : PyStr) (start_pos context_chars i : Nat)
    (hlo : start_pos - context_chars ≤ i) (hhi : i < start_pos)
    (hP : fssBoundaryAt text i = true ∨ fssArticleAt text i = true)
    (hmin : ∀ j, start_pos - context_chars ≤ j → j < i →
      fssBoundaryAt text j = false ∧ fssArticleAt text j = false) :
    findSentenceStart text start_pos context_chars =
      (if fssBoundaryAt text i then i + 1 else i - 1) := by
  unfold findSentenceStart
  exact fssGo_spec text start_pos i (start_pos + 1) (start_pos - context_chars)
    hlo hhi (by omega) hmin hP

/-- C5 amended witness: the amended characterization at the concrete text,
with the least qualifying window index 1. -/
theorem c5_sentence_start_amended_witness :
    findSentenceStart c5Text 6 500 = (if fssBoundaryAt c5Text 1 then 1 + 1 else 1 - 1) :=
  c5_sentence_start_amended c5Text 6 500 1 (by decide) (by decide)
    (Or.inl (by decide))
    (by
      intro j _ hj
      have hj0 : j = 0 := by omega
      subst hj0
      exact ⟨by decide, by decide⟩)

/-! ## Claim C4 -/

/-- Does an instance carry a numeric (all-digits) article value? -/
def numericArticle (c : ClauseInstance) : Bool :=
  hasArticleVal c && pyIsDigit (c.article.getD [])

/-- Does an instance carry a non-numeric article value? -/
def nonNumericArticle (c : ClauseInstance) : Bool :=
  hasArticleVal c && !pyIsDigit (c.article.getD [])

/-- An instance labelled with the numeric article 1000 (beyond the 999
sentinel the code assigns to non-numeric articles). -/
def c4InstNum1000 : ClauseInstance :=
  { text := pyOf "ARTICLE 1000 governs termination of this agreement in its entirety by either party.",
    matched := pyOf "terminat", position := 0, article := some (pyOf "1000") }

/-- An instance with a non-numeric article value. -/
def c4InstNonNum : ClauseInstance :=
  { text := pyOf "Termination rights are described in the rider attached hereto as an exhibit.",
    matched := pyOf "terminat", position := 400, article := some (pyOf "ex") }

/-- C4 counterexample: the non-numeric article gets the fixed sort key 999,
so it is ordered *before* the numeric article 1000 — non-numeric article
values do not sort last, contradicting the claim's ordering rule. -/
theorem c4_counterexample :
    numericArticle c4InstNum1000 = true ∧ nonNumericArticle c4InstNonNum = true ∧
    prioritize_and_limit_clauses [c4InstNum1000, c4InstNonNum] (pyOf "termination") =
      [c4InstNonNum, c4InstNum1000] ∧
    ¬ List.Pairwise
        (fun a b => ¬(nonNumericArticle a = true ∧ numericArticle b = true))
        (prioritize_and_limit_clauses [c4InstNum1000, c4InstNonNum]
          (pyOf "termination")) := by
  refine ⟨by decide, by decide, by decide, by decide⟩

/-- Inserting via `pyInsertBy` permutes a cons. -/
theorem pyInsertBy_perm (lt : α → α → Bool) (x : α) (l : List α) :
    List.Perm (pyInsertBy lt x l) (x :: l) := by
  induction l with
  | nil => simp [pyInsertBy]
  | cons y ys ih =>
    by_cases h : lt y x = true
    · simp only [pyInsertBy, h, if_true]
      exact (ih.cons y).trans (List.Perm.swap x y ys)
    · simp [pyInsertBy, h]

/-- `pySortBy` permutes its input. -/
theorem pySortBy_perm (lt : α → α → Bool) (l : List α) :
    List.Perm (pySortBy lt l) l := by
  induction l with
  | nil => simp [pySortBy]
  | cons x xs ih => exact (pyInsertBy_perm lt x (pySortBy lt xs)).trans (ih.cons x)

/-- `pyInsertBy` preserves sortedness (non-strict, as negation of the
strict comparison) given asymmetry and transitivity of the non-strict
relation. -/
theorem pyInsertBy_pairwise (lt : α → α → Bool)
    (hasym : ∀ a b, lt a b = true → lt b a = false)
    (htrans : ∀ a b c, lt b a = false → lt c b = false → lt c a = false)
    (x : α) (l : List α) (h : l.Pairwise (fun a b => lt b a = false)) :
    (pyInsertBy lt x l).Pairwise (fun a b => lt b a = false) := by
  induction l with
  | nil => simp [pyInsertBy]
  | cons y ys ih =>
    rcases List.pairwise_cons.mp h with ⟨hy, hys⟩
    by_cases hlt : lt y x = true
    · simp only [pyInsertBy, hlt, if_true]
      refine List.pairwise_cons.mpr ⟨?_, ih hys⟩
      intro z hz
      have hz' : z = x ∨ z ∈ ys := by
        have := (pyInsertBy_perm lt x ys).mem_iff.mp hz
        simpa using this
      rcases hz' with rfl | hzys
      · exact hasym y z hlt
      · exact hy z hzys
    · have hyx : lt y x = false := by simpa using hlt
      simp only [pyInsertBy, hlt, if_false]
      refine List.pairwise_cons.mpr ⟨?_, h⟩
      intro z hz
      rcases List.mem_cons.mp hz with rfl | hzys
      · exact hyx
      · exact htrans x y z hyx (hy z hzys)

/-- `pySortBy` sorts: adjacent-free pairwise non-strict order. -/
theorem pySortBy_pairwise (lt : α → α → Bool)
    (hasym : ∀ a b, lt a b = true → lt b a = false)
    (htrans : ∀ a b c, lt b a = false → lt c b = false → lt c a = false)
    (l : List α) : (pySortBy lt l).Pairwise (fun a b => lt b a = false) := by
  induction l with
  | nil => simp [pySortBy]
  | cons x xs ih => exact pyInsertBy_pairwise lt hasym htrans x _ ih

/-- C4 amended: `prioritize_and_limit_clauses` splits the instances into
the article and no-article groups, sorts the article group ascending by the
key "numeric article value, with the fixed key 999 for non-numeric article
values" (ties broken by document position) — so a non-numeric article sorts
after numeric values below 999, ties with 999, and sorts *before* numeric
values above 999 — sorts the no-article group by descending snippet length,
and returns the concatenation (article group first) truncated to the
category cap; in the returned list every article-labelled instance precedes
every unlabelled one. -/
theorem c4_prioritize_amended (clauses : List ClauseInstance) (ct : PyStr) :
    ∃ artPart noArtPart,
      prioritize_and_limit_clauses clauses ct =
        (artPart ++ noArtPart).take (configured_cap ct) ∧
      List.Perm artPart (clauses.filter hasArticleVal) ∧
      List.Perm noArtPart (clauses.filter (fun c => !hasArticleVal c)) ∧
      (∀ c ∈ artPart, hasArticleVal c = true) ∧
      (∀ c ∈ noArtPart, hasArticleVal c = false) ∧
      artPart.Pairwise (fun a b =>
        (articleSortKey a).1 < (articleSortKey b).1 ∨
        ((articleSortKey a).1 = (articleSortKey b).1 ∧ a.position ≤ b.position)) ∧
      noArtPart.Pairwise (fun a b => b.text.length ≤ a.text.length) ∧
      (prioritize_and_limit_clauses clauses ct).Pairwise
        (fun a b => hasArticleVal b = true → hasArticleVal a = true) := by
  by_cases hemp : clauses.isEmpty
  · have hnil : clauses = [] := by
      cases clauses with
      | nil => rfl
      | cons a l => simp [List.isEmpty_cons] at hemp
    subst hnil
    exact ⟨[], [], by simp [prioritize_and_limit_clauses], by simp, by simp,
      by simp, by simp, by simp, by simp, by simp [prioritize_and_limit_clauses]⟩
  · have hkeyT : ∀ a b : Nat × Nat,
        keyLtN2 a b = true ↔ (a.1 < b.1 ∨ (a.1 = b.1 ∧ a.2 < b.2)) := by
      intro a b
      simp [keyLtN2]
    have hkeyF : ∀ a b : Nat × Nat,
        keyLtN2 a b = false ↔ ¬(a.1 < b.1 ∨ (a.1 = b.1 ∧ a.2 < b.2)) := by
      intro a b
      rw [← hkeyT]
      cases keyLtN2 a b <;> simp
    have hltA_asym : ∀ a b : ClauseInstance,
        keyLtN2 (articleSortKey a) (articleSortKey b) = true →
        keyLtN2 (articleSortKey b) (articleSortKey a) = false := by
      intro a b h
      rw [hkeyT] at h
      rw [hkeyF]
      omega
    have hltA_trans : ∀ a b c : ClauseInstance,
        keyLtN2 (articleSortKey b) (articleSortKey a) = false →
        keyLtN2 (articleSortKey c) (articleSortKey b) = false →
        keyLtN2 (articleSortKey c) (articleSortKey a) = false := by
      intro a b c h1 h2
      rw [hkeyF] at h1 h2
      rw [hkeyF]
      omega
    have hltL_asym : ∀ a b : ClauseInstance,
        (decide (b.text.length < a.text.length)) = true →
        (decide (a.text.length < b.text.length)) = false := by
      intro a b
      simp only [decide_eq_true_eq, decide_eq_false_iff_not]
      omega
    have hltL_trans : ∀ a b c : ClauseInstance,
        (decide (a.text.length < b.text.length)) = false →
        (decide (b.text.length < c.text.length)) = false →
        (decide (a.text.length < c.text.length)) = false := by
      intro a b c
      simp only [decide_eq_false_iff_not]
      omega
    have hallPairwise : ∀ (l : List ClauseInstance),
        (∀ c ∈ l, hasArticleVal c = true) →
        l.Pairwise (fun a b => hasArticleVal b = true → hasArticleVal a = true) := by
      intro l hAl
      induction l with
      | nil => exact List.Pairwise.nil
      | cons a t ih =>
        refine List.Pairwise.cons ?_ (ih (fun c hc => hAl c (List.mem_cons_of_mem _ hc)))
        intro b _ _
        exact hAl a (List.mem_cons_self a t)
    have hnonePairwise : ∀ (l : List ClauseInstance),
        (∀ c ∈ l, hasArticleVal c = false) →
        l.Pairwise (fun a b => hasArticleVal b = true → hasArticleVal a = true) := by
      intro l hBl
      induction l with
      | nil => exact List.Pairwise.nil
      | cons a t ih =>
        refine List.Pairwise.cons ?_ (ih (fun c hc => hBl c (List.mem_cons_of_mem _ hc)))
        intro b hb hab
        rw [hBl b (List.mem_cons_of_mem _ hb)] at hab
        exact absurd hab (by simp)
    set artPart := pySortBy (fun a b => keyLtN2 (articleSortKey a) (articleSortKey b))
      (clauses.filter hasArticleVal) with hartdef
    set noArtPart := pySortBy (fun a b => b.text.length < a.text.length)
      (clauses.filter (fun c => !hasArticleVal c)) with hnoartdef
    have hpermA : List.Perm artPart (clauses.filter hasArticleVal) := pySortBy_perm _ _
    have hpermB : List.Perm noArtPart (clauses.filter (fun c => !hasArticleVal c)) :=
      pySortBy_perm _ _
    have hA : ∀ c ∈ artPart, hasArticleVal c = true := by
      intro c hc
      exact (List.mem_filter.mp (hpermA.mem_iff.mp hc)).2
    have hB : ∀ c ∈ noArtPart, hasArticleVal c = false := by
      intro c hc
      simpa using (List.mem_filter.mp (hpermB.mem_iff.mp hc)).2
    have hout : prioritize_and_limit_clauses clauses ct =
        (artPart ++ noArtPart).take (configured_cap ct) := by
      simp [prioritize_and_limit_clauses, hemp, hartdef, hnoartdef]
    have happ : (artPart ++ noArtPart).Pairwise
        (fun a b => hasArticleVal b = true → hasArticleVal a = true) := by
      rw [List.pairwise_append]
      exact ⟨hallPairwise artPart hA, hnonePairwise noArtPart hB,
        fun a ha b _ _ => hA a ha⟩
    refine ⟨artPart, noArtPart, hout, hpermA, hpermB, hA, hB, ?_, ?_, ?_⟩
    · refine (pySortBy_pairwise _ hltA_asym hltA_trans _).imp ?_
      intro a b hab
      rw [hkeyF] at hab
      have hpos : (articleSortKey a).2 = a.position := rfl
      have hpos' : (articleSortKey b).2 = b.position := rfl
      omega
    · refine (pySortBy_pairwise _ hltL_asym hltL_trans _).imp ?_
      intro a b hab
      simp only [decide_eq_false_iff_not] at hab
      omega
    · rw [hout]
      exact happ.sublist (List.take_sublist _ _)

/-! ## Shared pipeline-dissection lemmas -/

/-- Generic foldl invariant preservation. -/
theorem foldl_preserves {α β : Type} {P : β → Prop} (f : β → α → β)
    (hf : ∀ b a, P b → P (f b a)) : ∀ (l : List α) (b : β), P b → P (l.foldl f b) := by
  intro l
  induction l with
  | nil => intro b hb; exact hb
  | cons x xs ih => intro b hb; exact ih (f b x) (hf b x hb)

/-- Members of the `extract_all_clauses` output come from `buildGroup` on
a catalog entry. -/
theorem mem_extract_all {d : PyStr} {g : ClauseGroup}
    (hg : g ∈ extract_all_clauses d) :
    ∃ e ∈ CLAUSE_PATTERNS, buildGroup d e = some g := by
  unfold extract_all_clauses at hg
  by_cases hemp : d.isEmpty
  · simp [hemp] at hg
  · rw [if_neg (by simp [hemp])] at hg
    exact List.mem_filterMap.mp hg

/-- Dissection of a successful `buildGroup`. -/
theorem buildGroup_some {d : PyStr} {e : PyStr × ClauseInfo} {g : ClauseGroup}
    (h : buildGroup d e = some g) :
    g.type = e.1 ∧ g.description = e.2.description ∧
    g.risk_level = e.2.risk_level ∧
    g.clauses = prioritize_and_limit_clauses (collectClauses d e.1 e.2) e.1 ∧
    g.clauses ≠ [] ∧ g.count = g.clauses.length := by
  unfold buildGroup at h
  by_cases hfe : (prioritize_and_limit_clauses (collectClauses d e.1 e.2) e.1).isEmpty
  · rw [if_pos hfe] at h
    exact absurd h (by simp)
  · rw [if_neg hfe] at h
    have hge := Option.some.inj h
    subst hge
    refine ⟨rfl, rfl, rfl, rfl, ?_, rfl⟩
    intro hcon
    apply hfe
    rw [List.isEmpty_iff]
    exact hcon

/-- The prioritizer's output never exceeds the category cap. -/
theorem prioritize_length_le (l : List ClauseInstance) (ct : PyStr) :
    (prioritize_and_limit_clauses l ct).length ≤ configured_cap ct := by
  unfold prioritize_and_limit_clauses
  by_cases h : l.isEmpty
  · simp [h]
  · rw [if_neg (by simp [h])]
    exact List.length_take_le _ _

/-- Every configured cap is 2 or 3 (the table holds only 2s and 3s and the
default is 3). -/
theorem configured_cap_two_or_three (ct : PyStr) :
    configured_cap ct = 2 ∨ configured_cap ct = 3 := by
  unfold configured_cap
  cases hf : limits.find? (fun e => e.1 == ct) with
  | none => exact Or.inr rfl
  | some e =>
    have hmem := List.mem_of_find?_eq_some hf
    have hall : ∀ x ∈ limits, x.2 = 2 ∨ x.2 = 3 := by decide
    exact hall e hmem

/-! ## Claim C3 -/

/-- C3: every group returned by `extract_all_clauses` has `count` equal to
the length of its instance list, a non-empty instance list (zero-instance
categories are omitted), and at most `configured_cap` instances — the limit
table's value for listed categories, 3 otherwise, all caps being 2 or 3. -/
theorem c3_group_count_and_cap (d : PyStr) (g : ClauseGroup)
    (hg : g ∈ extract_all_clauses d) :
    g.count = g.clauses.length ∧ g.clauses ≠ [] ∧
    g.clauses.length ≤ configured_cap g.type ∧
    (configured_cap g.type = 2 ∨ configured_cap g.type = 3) := by
  obtain ⟨e, _, hbe⟩ := mem_extract_all hg
  obtain ⟨hty, _, _, hcl, hne, hcnt⟩ := buildGroup_some hbe
  refine ⟨hcnt, hne, ?_, configured_cap_two_or_three g.type⟩
  rw [hcl, hty]
  exact prioritize_length_le _ _

/-- The C9/C3/C2 concrete document. -/
def c9Text : PyStr :=
  pyOf "PAYMENT: Monthly rent of $2500 is due on the 1st. Late fees of $50 apply after the 5th."

/-- The single clause group `extract_all_clauses` yields on `c9Text`. -/
def c9PaymentGroup : ClauseGroup :=
  { type := pyOf "payment",
    description := pyOf "Payment terms, fees, rent schedules, and financial obligations",
    risk_level := pyOf "low",
    clauses := [{ text := c9Text,
                  matched := pyOf "PAYMENT: Monthly rent of $2500 is due on the 1st. Late fees of $50",
                  position := 0, article := none }],
    count := 1 }

set_option maxRecDepth 200000 in
/-- C3 witness: the count/cap properties at the concrete payment group
extracted from `c9Text`. -/
theorem c3_group_count_and_cap_witness :
    c9PaymentGroup.count = c9PaymentGroup.clauses.length ∧
    c9PaymentGroup.clauses ≠ [] ∧
    c9PaymentGroup.clauses.length ≤ configured_cap c9PaymentGroup.type ∧
    (configured_cap c9PaymentGroup.type = 2 ∨ configured_cap c9PaymentGroup.type = 3) :=
  c3_group_count_and_cap c9Text c9PaymentGroup (by decide)

/-! ## Claim C2 -/

/-- The claim-side word-set Jaccard similarity as an exact rational, with
value 0 when the union is empty (as the source computes it). -/
def jaccardSimilarity (t1 t2 : PyStr) : ℚ :=
  let w1 := (wordRuns (pyLower t1)).toFinset
  let w2 := (wordRuns (pyLower t2)).toFinset
  if 0 < (w1 ∪ w2).card then ((w1 ∩ w2).card : ℚ) / ((w1 ∪ w2).card : ℚ) else 0

set_option maxHeartbeats 1000000 in
/-- A failed `texts_similar` test at threshold 0.7 means the exact Jaccard
similarity is below `7/10`. -/
theorem texts_similar_false_jaccard {t1 t2 : PyStr}
    (h : texts_similar t1 t2 7 10 = false) : jaccardSimilarity t1 t2 < 7/10 := by
  simp only [texts_similar] at h
  simp only [jaccardSimilarity]
  generalize (wordRuns (pyLower t1)).toFinset = w1 at h ⊢
  generalize (wordRuns (pyLower t2)).toFinset = w2 at h ⊢
  by_cases hemp : (w1 = ∅ ∨ w2 = ∅)
  · have hint : (w1 ∩ w2).card = 0 := by
      rcases hemp with h1 | h2
      · rw [h1]; simp
      · rw [h2]; simp
    rw [hint]
    split
    · push_cast
      rw [zero_div]
      norm_num
    · norm_num
  · rw [if_neg hemp] at h
    have hu : 0 < (w1 ∪ w2).card := by
      have h1 : w1 ≠ ∅ := fun hc => hemp (Or.inl hc)
      have h2 : w1.Nonempty := Finset.nonempty_iff_ne_empty.mpr h1
      exact Finset.card_pos.mpr (h2.mono Finset.subset_union_left)
    rw [if_pos hu]
    rw [if_pos hu, if_pos hu] at h
    have hnat : ¬ (7 * (w1 ∪ w2).card ≤ (w1 ∩ w2).card * 10) := by
      simpa using h
    rw [div_lt_div_iff₀ (by exact_mod_cast hu) (by norm_num : (0:ℚ) < 10)]
    have hcross : (w1 ∩ w2).card * 10 < 7 * (w1 ∪ w2).card := by omega
    exact_mod_cast hcross

/-- Jaccard similarity is symmetric. -/
theorem jaccardSimilarity_comm (t1 t2 : PyStr) :
    jaccardSimilarity t1 t2 = jaccardSimilarity t2 t1 := by
  simp only [jaccardSimilarity]
  rw [Finset.union_comm, Finset.inter_comm]

/-- The invariant the accumulation loop maintains between an earlier
accepted instance and a later one. -/
def accumRel (a b : ClauseInstance) : Prop :=
  texts_similar a.text b.text 7 10 = false ∧
  ¬ (Nat.dist a.position b.position < 200)

/-- One accumulation step preserves pairwise non-duplication. -/
theorem accumStep_pairwise (ct : PyStr) (acc : List ClauseInstance)
    (m : ClauseInstance) (h : acc.Pairwise accumRel) :
    (accumStep ct acc m).Pairwise accumRel := by
  unfold accumStep
  by_cases hrel : is_relevant_clause m ct = true
  · rw [if_pos hrel]
    by_cases hdup : isDuplicateOf acc m = true
    · rw [if_pos hdup]; exact h
    · rw [if_neg hdup]
      rw [List.pairwise_append]
      refine ⟨h, List.pairwise_singleton _ _, ?_⟩
      intro a ha b hb
      have hb' : b = m := List.mem_singleton.mp hb
      rw [hb']
      have hdup' : isDuplicateOf acc m = false := by
        cases hv : isDuplicateOf acc m with
        | false => rfl
        | true => exact absurd hv hdup
      unfold isDuplicateOf at hdup'
      rw [List.any_eq_false] at hdup'
      have := hdup' a ha
      simp only [Bool.or_eq_true, decide_eq_true_eq, not_or] at this
      exact ⟨by simpa using this.1, this.2⟩
  · rw [if_neg hrel]; exact h

/-- The per-category accumulation yields pairwise non-duplicates. -/
theorem collectClauses_pairwise (d ct : PyStr) (info : ClauseInfo) :
    (collectClauses d ct info).Pairwise accumRel := by
  unfold collectClauses
  refine foldl_preserves _ ?_ _ _ List.Pairwise.nil
  intro acc kw hacc
  exact foldl_preserves _ (fun b a hb => accumStep_pairwise ct b a hb) _ _ hacc

/-- The prioritizer (a permutation of the partition, truncated) preserves
any symmetric pairwise relation. -/
theorem prioritize_pairwise {R : ClauseInstance → ClauseInstance → Prop}
    (hsym : ∀ a b, R a b → R b a) (l : List ClauseInstance) (ct : PyStr)
    (h : l.Pairwise R) : (prioritize_and_limit_clauses l ct).Pairwise R := by
  unfold prioritize_and_limit_clauses
  by_cases hemp : l.isEmpty = true
  · rw [if_pos hemp]; exact List.Pairwise.nil
  · rw [if_neg hemp]
    have hperm : List.Perm
        ((pySortBy (fun a b => keyLtN2 (articleSortKey a) (articleSortKey b))
            (l.filter hasArticleVal)) ++
         (pySortBy (fun a b => b.text.length < a.text.length)
            (l.filter (fun c => !hasArticleVal c)))) l :=
      ((pySortBy_perm _ _).append (pySortBy_perm _ _)).trans
        (List.filter_append_perm _ l)
    have hp := (hperm.pairwise_iff (fun hab => hsym _ _ hab)).mpr h
    exact hp.sublist (List.take_sublist _ _)

/-- C2: in every group returned by `extract_all_clauses`, no two distinct
instances have word-set Jaccard similarity of their snippets reaching 0.7
and no two have positions closer than 200 characters; and whenever the
accumulation loop sees a duplicate candidate, the accepted list is left
unchanged (first-accepted wins, the later candidate is dropped). -/
theorem c2_group_no_near_duplicates :
    (∀ (d : PyStr), ∀ g ∈ extract_all_clauses d,
      g.clauses.Pairwise (fun a b =>
        jaccardSimilarity a.text b.text < 7/10 ∧
        200 ≤ Nat.dist a.position b.position)) ∧
    (∀ (ct : PyStr) (acc : List ClauseInstance) (m : ClauseInstance),
      isDuplicateOf acc m = true → accumStep ct acc m = acc) := by
  constructor
  · intro d g hg
    obtain ⟨e, _, hbe⟩ := mem_extract_all hg
    obtain ⟨_, _, _, hcl, _, _⟩ := buildGroup_some hbe
    rw [hcl]
    have hsym : ∀ a b : ClauseInstance,
        (jaccardSimilarity a.text b.text < 7/10 ∧
          200 ≤ Nat.dist a.position b.position) →
        (jaccardSimilarity b.text a.text < 7/10 ∧
          200 ≤ Nat.dist b.position a.position) := by
      intro a b hab
      exact ⟨by rw [jaccardSimilarity_comm]; exact hab.1,
        by rw [Nat.dist_comm]; exact hab.2⟩
    refine prioritize_pairwise hsym _ _ ?_
    refine (collectClauses_pairwise d e.1 e.2).imp ?_
    intro a b hab
    obtain ⟨hts, hdist⟩ := hab
    exact ⟨texts_similar_false_jaccard hts, by omega⟩
  · intro ct acc m hdup
    unfold accumStep
    by_cases hrel : is_relevant_clause m ct = true
    · rw [if_pos hrel, if_pos hdup]
    · rw [if_neg hrel]

/-- An accepted instance for the C2 witness. -/
def c2DupA : ClauseInstance :=
  { text := pyOf "Payment of $100 is due monthly on the first day of each month as agreed.",
    matched := pyOf "payment", position := 0, article := none }

/-- A later candidate within 200 characters of `c2DupA` (a positional
duplicate). -/
def c2DupB : ClauseInstance :=
  { text := pyOf "A completely different clause about termination notice periods appears here.",
    matched := pyOf "terminat", position := 50, article := none }

set_option maxRecDepth 200000 in
/-- C2 witness: the pairwise property at the concrete group extracted from
`c9Text`, and the duplicate-drop behaviour at a concrete positional
duplicate. -/
theorem c2_group_no_near_duplicates_witness :
    c9PaymentGroup.clauses.Pairwise (fun a b =>
      jaccardSimilarity a.text b.text < 7/10 ∧
      200 ≤ Nat.dist a.position b.position) ∧
    accumStep (pyOf "payment") [c2DupA] c2DupB = [c2DupA] :=
  ⟨c2_group_no_near_duplicates.1 c9Text c9PaymentGroup (by decide),
   c2_group_no_near_duplicates.2 (pyOf "payment") [c2DupA] c2DupB (by decide)⟩

/-! ## Claim C9 -/

set_option maxRecDepth 200000 in
/-- C9: on the concrete payment text, `extract_all_clauses` returns a group
of type `payment` with an instance whose snippet contains `$2500` or
`$50`. -/
theorem c9_payment_extraction :
    (extract_all_clauses c9Text).any (fun g =>
      g.type == pyOf "payment" &&
      g.clauses.any (fun i =>
        pyContains i.text (pyOf "$2500") || pyContains i.text (pyOf "$50"))) = true := by
  decide

/-! ## Claim C6 -/

/-- A 1253-character text with no sentence boundary at all: `q`, then 417
repetitions of `"ab "`, then `z`. -/
def c6LongText : PyStr := 'q' :: (List.replicate 417 (pyOf "ab ")).flatten ++ pyOf "z"

set_option maxRecDepth 1000000 in
set_option maxHeartbeats 64000000 in
/-- The pattern `q.*z` matches `c6LongText` exactly once, spanning the whole
1253-character text. -/
theorem c6_find :
    reFinditer { icase := true, multiline := true } (pyOf "q.*z") c6LongText =
      [⟨0, 1253, []⟩] := by decide

set_option maxRecDepth 1000000 in
/-- Stripping the full-text slice of `c6LongText` changes nothing: the text
neither starts nor ends with whitespace. -/
theorem c6_strip_slice : pyStrip (pySlice c6LongText 0 1253) = c6LongText :=
  eq_of_beq (by decide)

set_option maxRecDepth 1000000 in
set_option maxHeartbeats 64000000 in
/-- None of the cleanup rewrites fires on `c6LongText`: the chain returns it
unchanged. -/
theorem c6_refine_id : refineClauseText c6LongText = c6LongText :=
  eq_of_beq (by decide)

set_option maxRecDepth 1000000 in
/-- The length cap on the 1253-character `c6LongText` lands in the
hard-truncation branch: 1200 characters plus the three-character ellipsis. -/
theorem c6_cap_len : (capClauseLength c6LongText).length = 1203 := by decide

set_option maxRecDepth 1000000 in
set_option maxHeartbeats 64000000 in
/-- On the whole-text match the snippet computation reduces to the length cap
applied to `c6LongText` itself: the boundary scans return the match bounds,
the stripped slice is the full text, and the cleanup chain is the identity. -/
theorem c6_snippet_eq :
    clauseSnippet c6LongText 500 ⟨0, 1253, []⟩ = capClauseLength c6LongText := by
  simp only [clauseSnippet]
  rw [show findSentenceStart c6LongText 0 500 = 0 from by decide,
    show findSentenceEnd c6LongText 1253 500 = 1253 from by decide,
    c6_strip_slice, if_neg (by decide : ¬ (c6LongText.length < 100)), c6_refine_id]

/-- C6 counterexample: a snippet that reaches the hard-truncation branch is
returned with 1203 characters (1200 plus the three-character ellipsis
marker), exceeding the claimed 1200-character bound. -/
theorem c6_counterexample :
    (extract_clause_context c6LongText (pyOf "q.*z")).map
      (fun i => i.text.length) = [1203] ∧
    ¬ ((extract_clause_context c6LongText (pyOf "q.*z")).all
      (fun i => i.text.length ≤ 1200) = true) := by
  have hmain : (extract_clause_context c6LongText (pyOf "q.*z")).map
      (fun i => i.text.length) = [1203] := by
    unfold extract_clause_context
    rw [c6_find]
    simp only [List.map_cons, List.map_nil]
    show [(clauseSnippet c6LongText 500 ⟨0, 1253, []⟩).length] = [1203]
    rw [c6_snippet_eq, c6_cap_len]
  refine ⟨hmain, ?_⟩
  intro hall
  cases hl : extract_clause_context c6LongText (pyOf "q.*z") with
  | nil => rw [hl] at hmain; exact absurd hmain (by simp)
  | cons a t =>
    cases t with
    | nil =>
      rw [hl] at hmain hall
      simp only [List.map_cons, List.map_nil, List.cons.injEq, and_true] at hmain
      simp only [List.all_cons, List.all_nil, Bool.and_true,
        decide_eq_true_eq] at hall
      omega
    | cons b t2 =>
      rw [hl] at hmain
      simp at hmain

/-- `pyRfind` returns an index below the length (or `-1`). -/
theorem pyRfind_lt_length (s : PyStr) (c : Char) : pyRfind s c < (s.length : Int) := by
  unfold pyRfind
  suffices h : ∀ (l : List Char) (acc : Int) (n : Nat), acc < (n : Int) →
      (l.foldl (fun (st : Int × Nat) ch =>
        (if ch == c then (Int.ofNat st.2, st.2 + 1) else (st.1, st.2 + 1))) (acc, n)).1 <
      ((n + l.length : Nat) : Int) by
    have hres := h s (-1) 0 (by norm_num)
    simpa using hres
  intro l
  induction l with
  | nil =>
    intro acc n h
    simpa using h
  | cons ch cs ih =>
    intro acc n h
    simp only [List.foldl_cons]
    by_cases hc : (ch == c) = true
    · rw [if_pos hc]
      have := ih (Int.ofNat n) (n + 1) (by simp)
      have hlen : ((n + 1) + cs.length : Nat) = (n + (ch :: cs).length : Nat) := by
        simp [List.length_cons]
        omega
      rw [hlen] at this
      exact this
    · rw [if_neg hc]
      have := ih acc (n + 1) (by omega)
      have hlen : ((n + 1) + cs.length : Nat) = (n + (ch :: cs).length : Nat) := by
        simp [List.length_cons]
        omega
      rw [hlen] at this
      exact this

/-- The length cap never returns more than 1203 characters: at most 1200
for input at most 1200 long or for the sentence/paragraph truncation
branches, exactly 1200 + 3 for the hard truncation with ellipsis. -/
theorem capClauseLength_length_le (s : PyStr) : (capClauseLength s).length ≤ 1203 := by
  unfold capClauseLength
  by_cases h : s.length > 1200
  · rw [if_pos h]
    have htl : (s.take 1200).length = 1200 := by
      rw [List.length_take]
      omega
    have hrf := pyRfind_lt_length (s.take 1200) '.'
    have hrfn := pyRfind_lt_length (s.take 1200) '\n'
    rw [htl] at hrf hrfn
    by_cases hp : pyRfind (s.take 1200) '.' > 900
    · rw [if_pos hp]
      have : (pyRfind (s.take 1200) '.').toNat + 1 ≤ 1200 := by omega
      calc ((s.take 1200).take ((pyRfind (s.take 1200) '.').toNat + 1)).length
          ≤ (pyRfind (s.take 1200) '.').toNat + 1 := List.length_take_le _ _
        _ ≤ 1203 := by omega
    · rw [if_neg hp]
      by_cases hn : pyRfind (s.take 1200) '\n' > 900
      · rw [if_pos hn]
        have : (pyRfind (s.take 1200) '\n').toNat ≤ 1200 := by omega
        calc ((s.take 1200).take ((pyRfind (s.take 1200) '\n').toNat)).length
            ≤ (pyRfind (s.take 1200) '\n').toNat := List.length_take_le _ _
          _ ≤ 1203 := by omega
      · rw [if_neg hn]
        rw [List.length_append, htl]
        simp [pyOf]
  · rw [if_neg h]
    omega

/-- C6 amended: every snippet returned by `extract_clause_context` has
final length at most 1203 characters: when the cleaned snippet exceeds
1200, it is truncated at the last sentence-ending punctuation past the
900-character mark if one exists (length at most 1200), otherwise at the
last paragraph break past 900 (at most 1200), otherwise hard-truncated to
1200 characters with a three-character ellipsis marker appended (exactly
1203). -/
theorem c6_snippet_cap_amended (text pattern : PyStr) (cc : Nat)
    (inst : ClauseInstance) (h : inst ∈ extract_clause_context text pattern cc) :
    inst.text.length ≤ 1203 := by
  unfold extract_clause_context at h
  obtain ⟨m, _, hm⟩ := List.mem_map.mp h
  subst hm
  simp only [clauseSnippet]
  exact capClauseLength_length_le _

/-- The small text for the C6 witness. -/
def c6SmallText : PyStr :=
  pyOf "The tenant shall pay a late fee of $50 if rent is not received by the fifth day."

/-- The instance `extract_clause_context` yields on `c6SmallText` with the
pattern `late.*fee`. -/
def c6SmallInst : ClauseInstance :=
  { text := c6SmallText, matched := pyOf "late fee", position := 23, article := none }

set_option maxRecDepth 200000 in
/-- C6 amended witness: the cap at the concrete extraction. -/
theorem c6_snippet_cap_amended_witness : c6SmallInst.text.length ≤ 1203 :=
  c6_snippet_cap_amended c6SmallText (pyOf "late.*fee") 500 c6SmallInst (by decide)

end LegalEase
